import Mathlib

/-!
Verification of the deep-crawling web scraper in `src/testing.py`
(classes `DuckDuckGoSearch`, `DeepWebScraper`, `DeepScraperService`).

Shallow embedding conventions:
  * Python `str` values are Lean `String`s; Python string methods
    (`startswith`, `endswith`, `lower`, slices) are modelled char-by-char on
    `String.data` so that everything reduces by `decide`/`rfl`.
  * `urllib.parse.urljoin` / `urlparse` are Python standard library (not
    repository code); they are modelled below (`urljoin`, `get_domain`,
    `pySplitScheme`) for the input shapes the scraper feeds them: URLs whose
    base has a scheme and an authority, hrefs without query/fragment splitting
    (a `?`/`#` inside an href is treated as path text) and without
    percent-encoding.  Dot segments (`.`/`..`) are resolved as the stdlib does.
  * The Playwright page fetch (network + rendering) is external I/O; it is
    modelled as an oracle `World : String -> FetchOutcome`.  Playwright's
    `page.goto` raises on network errors and timeouts but, per its
    documentation, does NOT raise when the server answers with an error HTTP
    status; hence `FetchOutcome.ok` carries a `status` field that the scraper
    code never reads, `FetchOutcome.exn`/`FetchOutcome.timeout` model raised
    faults.  HTML parsing by BeautifulSoup is abstracted: a fetched page
    directly carries the anchor hrefs (in document order), tables, structured
    data, text and metadata that the extractors would produce from its HTML.
  * Python's `list(set(links))` iterates a hash set in an unspecified order
    (string hashing is randomized per process); that order is modelled as a
    parameter `sigma : OrderFn`, constrained by `ValidOrder` (the output is a
    duplicate-free list with the same members).
  * Python dictionaries that sometimes lack keys are modelled as structures
    whose missing fields take the same defaults that the consuming
    `dict.get(...)` calls supply (empty string / empty list / `none`).
-/

/-! ## Python-style string primitives -/

/-- Check that the first list is an initial segment of the second. -/
def listStarts : List Char → List Char → Bool
  | [], _ => true
  | _ :: _, [] => false
  | p :: ps, s :: ss => p == s && listStarts ps ss

/-- Model of Python `s.startswith(pat)`. -/
def pyStartsWith (s pat : String) : Bool :=
  listStarts pat.data s.data

/-- Model of Python `s.endswith(pat)`. -/
def pyEndsWith (s pat : String) : Bool :=
  listStarts pat.data.reverse s.data.reverse

/-- Model of Python `s.lower()` (ASCII range, which covers the denylist). -/
def pyToLower (s : String) : String :=
  String.mk (s.data.map Char.toLower)

/-- Model of the Python slice `s[:n]`. -/
def pyTake (s : String) (n : Nat) : String :=
  String.mk (s.data.take n)

/-- Model of Python `sep.join(parts)`. -/
def joinWith (sep : String) : List String → String
  | [] => ""
  | [x] => x
  | x :: y :: xs => x ++ sep ++ joinWith sep (y :: xs)

/-- Model of Python `str.split(sep)` for a one-character separator. -/
def splitOnChar (sep : Char) : List Char → List (List Char)
  | [] => [[]]
  | c :: cs =>
    let r := splitOnChar sep cs
    if c == sep then [] :: r
    else
      match r with
      | [] => [[c]]
      | h :: t => (c :: h) :: t

/-! ## URL validation (`DeepWebScraper.normalize_url`)

The source compiles the regex
`^(?:https?://)?(?:[A-Za-z0-9](?:[A-Za-z0-9-]{0,61}[A-Za-z0-9])?\.)+[A-Za-z]{2,}(?:/[^/\s]*)*$`
and tests `url_pattern.match(url)`.  Because a hostname label cannot contain
`:` or `/`, a match is forced to consume the literal `http://`/`https://`
prefix when present, the host part runs to the first `/`, each dot-separated
component but the last must match the label group, the last must be two or
more letters, and the rest of the string is `/`-started whitespace-free path
segments.  `$` also accepts one trailing newline. -/

/-- One hostname label: `[A-Za-z0-9](?:[A-Za-z0-9-]{0,61}[A-Za-z0-9])?`. -/
def isHostLabel : List Char → Bool
  | [] => false
  | c :: rest =>
    c.isAlphanum &&
      (rest.isEmpty ||
        (decide (rest.length ≤ 62) &&
          (rest.dropLast.all fun x => x.isAlphanum || x == '-') &&
          (match rest.getLast? with
           | some y => y.isAlphanum
           | none => true)))

/-- The final host component: `[A-Za-z]{2,}`. -/
def isTldPart (s : List Char) : Bool :=
  decide (2 ≤ s.length) && s.all (·.isAlpha)

/-- The host part of the URL regex: `(?:label\.)+[A-Za-z]{2,}`. -/
def hostOk (s : List Char) : Bool :=
  match (splitOnChar '.' s).reverse with
  | [] => false
  | tld :: labels => !labels.isEmpty && isTldPart tld && labels.all isHostLabel

/-- Characters matched by the regex class `\s` (ASCII range). -/
def isPySpace (c : Char) : Bool :=
  c == ' ' || c == '\t' || c == '\n' || c == '\r' || c == '\x0b' || c == '\x0c'

/-- The path part of the URL regex: `(?:/[^/\s]*)*`. -/
def pathOk : List Char → Bool
  | [] => true
  | c :: rest => c == '/' && (c :: rest).all (fun x => !isPySpace x)

/-- Drop a leading `https://` or `http://`, as the optional regex group does. -/
def stripHttpScheme (s : List Char) : List Char :=
  match s with
  | 'h' :: 't' :: 't' :: 'p' :: 's' :: ':' :: '/' :: '/' :: rest => rest
  | 'h' :: 't' :: 't' :: 'p' :: ':' :: '/' :: '/' :: rest => rest
  | _ => s

/-- Split at the first `/`: host part and path part (path keeps its `/`). -/
def splitHostPath : List Char → List Char × List Char
  | [] => ([], [])
  | c :: rest =>
    if c == '/' then ([], c :: rest)
    else
      let hp := splitHostPath rest
      (c :: hp.1, hp.2)

/-- The URL regex without the `$`-before-trailing-newline allowance. -/
def regexCore (s : List Char) : Bool :=
  let rest := stripHttpScheme s
  let hp := splitHostPath rest
  hostOk hp.1 && pathOk hp.2

/-- Whether `url_pattern.match(url)` succeeds (`$` also matches just before a
single trailing newline). -/
def url_pattern_match (url : String) : Bool :=
  regexCore url.data ||
    (match url.data.getLast? with
     | some c => c == '\n' && regexCore url.data.dropLast
     | none => false)

/-- Embedding of `DeepWebScraper.normalize_url`: validate against the URL
pattern and prefix `https://` when the scheme is missing. -/
def normalize_url (url : String) : Bool × String :=
  if url_pattern_match url then
    if pyStartsWith url "http://" || pyStartsWith url "https://" then (true, url)
    else (true, "https://" ++ url)
  else (false, url)

/-! ## `urllib.parse` model: scheme splitting, netloc, join -/

/-- Split a char list at the first `:`; `none` when there is no colon. -/
def splitAtColon : List Char → Option (List Char × List Char)
  | [] => none
  | ':' :: rest => some ([], rest)
  | c :: rest =>
    match splitAtColon rest with
    | some p => some (c :: p.1, p.2)
    | none => none

/-- Characters allowed in a URL scheme after the first letter. -/
def isSchemeChar (c : Char) : Bool :=
  c.isAlphanum || c == '+' || c == '-' || c == '.'

/-- Model of `urllib`'s scheme detection: the text before the first `:` is a
scheme when it is nonempty, starts with a letter and uses only scheme
characters; the scheme is returned lowercased with the remainder. -/
def pySplitScheme (url : String) : Option (String × String) :=
  match splitAtColon url.data with
  | none => none
  | some p =>
    match p.1 with
    | [] => none
    | c :: _ =>
      if c.isAlpha && p.1.all isSchemeChar then
        some (String.mk (p.1.map Char.toLower), String.mk p.2)
      else none

/-- Characters that end the authority component. -/
def isAuthEnd (c : Char) : Bool :=
  c == '/' || c == '?' || c == '#'

/-- Embedding of `DeepWebScraper.get_domain`:
`urllib.parse.urlparse(url).netloc` — present only when `//` follows the
(optional) scheme, running to the first `/`, `?` or `#`. -/
def get_domain (url : String) : String :=
  let rest :=
    match pySplitScheme url with
    | some p => p.2
    | none => url
  if listStarts ['/', '/'] rest.data then
    String.mk ((rest.data.drop 2).takeWhile (fun c => !isAuthEnd c))
  else ""

/-- Embedding of `DeepWebScraper.is_same_domain`. -/
def is_same_domain (url1 url2 : String) : Bool :=
  get_domain url1 == get_domain url2

/-- The stdlib's `uses_relative` scheme list. -/
def uses_relative : List String :=
  ["", "ftp", "http", "gopher", "nntp", "imap", "wais", "file", "https",
   "shttp", "mms", "prospero", "rtsp", "rtspu", "sftp", "svn", "svn+ssh",
   "ws", "wss"]

/-- Root (`scheme://netloc`) and path of a base URL (query and fragment of the
base are dropped, as `urljoin` does when the href has a path). -/
def baseRootPath (base : String) : String × String :=
  let p :=
    match pySplitScheme base with
    | some pr => (pr.1, pr.2)
    | none => ("", base)
  if listStarts ['/', '/'] p.2.data then
    let tail := p.2.data.drop 2
    let auth := tail.takeWhile (fun c => !isAuthEnd c)
    let rest := tail.dropWhile (fun c => !isAuthEnd c)
    let path := rest.takeWhile (fun c => !(c == '?' || c == '#'))
    (p.1 ++ "://" ++ String.mk auth, String.mk path)
  else
    ((if p.1 == "" then "" else p.1 ++ ":"),
      String.mk (p.2.data.takeWhile (fun c => !(c == '?' || c == '#'))))

/-- The stdlib's dot-segment pass: `..` pops (ignoring underflow), `.` is
skipped, anything else is appended. -/
def dotFold (resolved : List String) : List String → List String
  | [] => resolved
  | s :: rest =>
    if s == ".." then dotFold resolved.dropLast rest
    else if s == "." then dotFold resolved rest
    else dotFold (resolved ++ [s]) rest

/-- Resolve a scheme-free, non-`//` href path against a base URL, following
`urljoin`'s segment algorithm and `urlunsplit`'s slash insertion. -/
def resolvePath (base : String) (relpath : String) : String :=
  let rp := baseRootPath base
  if relpath == "" then rp.1 ++ rp.2
  else
    let relSegs := (splitOnChar '/' relpath.data).map (fun l => String.mk l)
    let segs :=
      if pyStartsWith relpath "/" then relSegs
      else ((splitOnChar '/' rp.2.data).map (fun l => String.mk l)).dropLast ++ relSegs
    let resolved := dotFold [] segs
    let resolved2 :=
      match segs.getLast? with
      | some s => if s == "." || s == ".." then resolved ++ [""] else resolved
      | none => resolved
    let joined := joinWith "/" resolved2
    let path := if joined == "" then "/" else joined
    if pyStartsWith path "/" then rp.1 ++ path else rp.1 ++ "/" ++ path

/-- Model of `urllib.parse.urljoin`: an href with a scheme different from the
base's, or with a scheme outside `uses_relative`, is returned unchanged; a
same-scheme href with its own authority is returned unchanged; `//`-started
hrefs inherit the base scheme; everything else is path resolution. -/
def urljoin (base url : String) : String :=
  if base == "" then url
  else if url == "" then base
  else
    let bscheme :=
      match pySplitScheme base with
      | some p => p.1
      | none => ""
    match pySplitScheme url with
    | some p =>
      if p.1 == bscheme && uses_relative.contains p.1 then
        (if listStarts ['/', '/'] p.2.data then url else resolvePath base p.2)
      else url
    | none =>
      if uses_relative.contains bscheme then
        (if listStarts ['/', '/'] url.data then bscheme ++ ":" ++ url
         else resolvePath base url)
      else url

/-! ## Link filtering (`normalize_internal_url`, `extract_links`) -/

/-- The binary/media extension denylist from `normalize_internal_url`. -/
def file_extensions : List String :=
  [".pdf", ".doc", ".docx", ".xls", ".xlsx", ".ppt", ".pptx",
   ".zip", ".rar", ".tar", ".gz", ".jpg", ".jpeg", ".png", ".gif",
   ".mp3", ".mp4", ".avi", ".mov"]

/-- Embedding of `DeepWebScraper.normalize_internal_url`. -/
def normalize_internal_url (base_url href : String) : Option String :=
  if href == "" || pyStartsWith href "#" || pyStartsWith href "javascript:" ||
      pyStartsWith href "mailto:" || pyStartsWith href "tel:" then none
  else
    let absolute_url := urljoin base_url href
    if !pyStartsWith absolute_url "http" then none
    else if file_extensions.any (fun ext => pyEndsWith (pyToLower absolute_url) ext) then none
    else some absolute_url

/-- The anchor-scanning loop of `DeepWebScraper.extract_links`, before the
final `list(set(links))`: `hrefs` are the page's anchor href attributes in
document order. -/
def extract_links_list (base_url : String) (hrefs : List String) : List String :=
  hrefs.filterMap fun h =>
    match normalize_internal_url base_url h with
    | some u => if is_same_domain base_url u then some u else none
    | none => none


/-! ## Data model -/

/-- One extracted HTML table (`DeepWebScraper.extract_tables` output shape). -/
structure Table where
  id : Nat := 0
  caption : String := ""
  headers : List String := []
  rows : List (List String) := []
deriving DecidableEq, Repr

/-- Output shape of `DeepWebScraper.extract_structured_data`.  JSON-LD blocks
are kept opaque (their serialized text). -/
structure StructuredData where
  json_ld : List String := []
  meta_tags : List (String × String) := []
  open_graph : List (String × String) := []
  twitter_cards : List (String × String) := []
deriving DecidableEq, Repr

/-- Python truthiness of `any(structured_data.values())`. -/
def sdHasAny (sd : StructuredData) : Bool :=
  !sd.json_ld.isEmpty || !sd.meta_tags.isEmpty ||
    !sd.open_graph.isEmpty || !sd.twitter_cards.isEmpty

/-- The page-level metadata dictionary built by `scrape_url`. -/
structure PageMeta where
  title : String := ""
  description : String := ""
  language : String := ""
  author : String := ""
deriving DecidableEq, Repr

/-- The `response_data` dictionary returned by `DeepWebScraper.scrape_url`.
Keys missing on the failure paths are modelled by the defaults that consumers
read back via `dict.get` (empty string, empty list, empty record). -/
structure ScrapeResult where
  success : Bool := false
  url : String := ""
  title : String := ""
  markdown : String := ""
  plain_text : String := ""
  html : String := ""
  links : List String := []
  metadata : PageMeta := {}
  structured_data : StructuredData := {}
  tables : List Table := []
  error : String := ""
deriving DecidableEq, Repr

/-- What the browser produced for one URL when `page.goto` succeeded.
`status` is the HTTP status of the response; `page.goto` does not raise for
error statuses and the scraper never reads it.  `hrefs` are the anchor href
attributes BeautifulSoup would find in the (truncated) rendered HTML, in
document order; `structured_data`/`tables` are what the extractors would pull
from that HTML. -/
structure PageData where
  status : Nat := 200
  title : String := ""
  description : String := ""
  language : String := ""
  author : String := ""
  plain_text : String := ""
  html : String := ""
  markdown : String := ""
  hrefs : List String := []
  structured_data : StructuredData := {}
  tables : List Table := []
deriving DecidableEq, Repr

/-- Outcome of one attempted browser fetch: a rendered page, a raised
exception (network/browser fault), or an `asyncio.TimeoutError`. -/
inductive FetchOutcome where
  | ok (pg : PageData)
  | exn (msg : String)
  | timeout
deriving DecidableEq, Repr

/-- The network/rendering oracle: what fetching each URL would produce. -/
def World : Type := String → FetchOutcome

/-- A process-wide iteration order for Python string sets, applied to the
collected link list by `list(set(links))`. -/
def OrderFn : Type := List String → List String

/-- A function is a valid set-listing when its output is duplicate-free and
has exactly the members of its input (all Python guarantees for
`list(set(xs))`). -/
def ValidOrder (σ : OrderFn) : Prop :=
  ∀ xs, (σ xs).Nodup ∧ ∀ u, u ∈ σ xs ↔ u ∈ xs

/-- Configuration of `DeepWebScraper.__init__` (browser options omitted: they
never influence the values the claims are about). -/
structure DeepWebScraper where
  timeout : Nat := 30
  max_depth : Nat := 2
  max_pages_per_domain : Nat := 5
deriving DecidableEq, Repr

/-- Embedding of `DeepWebScraper.scrape_url` (with the default extraction
flags, as `deep_crawl` calls it). -/
def scrape_url (S : DeepWebScraper) (W : World) (σ : OrderFn) (url : String) : ScrapeResult :=
  let v := normalize_url url
  if !v.1 then { success := false, url := url, error := "Invalid URL format" }
  else
    match W v.2 with
    | .timeout =>
      { success := false, url := v.2,
        error := "Operation timed out after " ++ toString S.timeout ++ " seconds" }
    | .exn msg => { success := false, url := v.2, error := msg }
    | .ok pg =>
      let html := pyTake pg.html 20000
      { success := true, url := v.2, title := pg.title, markdown := pg.markdown,
        plain_text := pg.plain_text, html := html,
        links := σ (extract_links_list v.2 pg.hrefs),
        metadata := { title := pg.title, description := pg.description,
                      language := pg.language, author := pg.author },
        structured_data := if html == "" then {} else pg.structured_data,
        tables := if html == "" then [] else pg.tables,
        error := "" }

/-- Observable history of one `deep_crawl` run: the `pages` accumulator of
`all_results`, plus two ghost traces that record every `(url, depth)` pair
passed to `scrape_url` and every pair ever placed on `urls_to_crawl`. -/
structure CrawlTrace where
  pages : List ScrapeResult := []
  fetched : List (String × Nat) := []
  enqueued : List (String × Nat) := []
deriving DecidableEq, Repr

/-- The link-enqueueing step of the crawl loop: when the popped depth is below
`max_depth`, every scraped link that is not yet visited and is on the seed's
domain is queued at `depth + 1`, in the order of `result["links"]`. -/
def crawlNewLinks (S : DeepWebScraper) (dom : String) (r : ScrapeResult)
    (visited1 : List String) (d : Nat) : List (String × Nat) :=
  if d < S.max_depth then
    (r.links.filter fun l => !visited1.contains l && get_domain l == dom).map
      (fun l => (l, d + 1))
  else []

/-- The `while urls_to_crawl and domain_page_count < max_pages` loop of
`DeepWebScraper.deep_crawl`.  `dom` is the seed's domain, `count` is
`domain_page_count`.  Failed scrapes are not appended to `pages` and do not
increment `count` (the body guards both with `if result["success"]`). -/
def crawl_loop (S : DeepWebScraper) (W : World) (σ : OrderFn) (dom : String) :
    List (String × Nat) → List String → Nat → CrawlTrace → CrawlTrace
  | [], _, _, acc => acc
  | (u, d) :: rest, visited, count, acc =>
    if hstop : S.max_pages_per_domain ≤ count then acc
    else if u ∈ visited then crawl_loop S W σ dom rest visited count acc
    else
      let r := scrape_url S W σ u
      let acc1 : CrawlTrace := { acc with fetched := acc.fetched ++ [(u, d)] }
      let visited1 := u :: visited
      if r.success then
        let newLinks := crawlNewLinks S dom r visited1 d
        crawl_loop S W σ dom (rest ++ newLinks) visited1 (count + 1)
          { acc1 with pages := acc1.pages ++ [r], enqueued := acc1.enqueued ++ newLinks }
      else crawl_loop S W σ dom rest visited1 count acc1
termination_by q _ count _ => (S.max_pages_per_domain - count, q.length)
decreasing_by
  · apply Prod.Lex.right
    simp
  · apply Prod.Lex.left
    omega
  · apply Prod.Lex.right
    simp

/-- Fuel-indexed version of `crawl_loop`, used to evaluate concrete runs by
kernel reduction and to reason by plain induction; `none` means the fuel ran
out before the loop finished. -/
def crawl_loopF (S : DeepWebScraper) (W : World) (σ : OrderFn) (dom : String) :
    Nat → List (String × Nat) → List String → Nat → CrawlTrace → Option CrawlTrace
  | _, [], _, _, acc => some acc
  | 0, _ :: _, _, _, _ => none
  | n + 1, (u, d) :: rest, visited, count, acc =>
    if S.max_pages_per_domain ≤ count then some acc
    else if u ∈ visited then crawl_loopF S W σ dom n rest visited count acc
    else
      let r := scrape_url S W σ u
      let acc1 : CrawlTrace := { acc with fetched := acc.fetched ++ [(u, d)] }
      let visited1 := u :: visited
      if r.success then
        let newLinks := crawlNewLinks S dom r visited1 d
        crawl_loopF S W σ dom n (rest ++ newLinks) visited1 (count + 1)
          { acc1 with pages := acc1.pages ++ [r], enqueued := acc1.enqueued ++ newLinks }
      else crawl_loopF S W σ dom n rest visited1 count acc1

/-- The trace of a whole `deep_crawl` run (empty when the seed is invalid:
the function returns before creating the queue). -/
def deep_crawl_trace (S : DeepWebScraper) (W : World) (σ : OrderFn)
    (start_url : String) : CrawlTrace :=
  let v := normalize_url start_url
  if !v.1 then {}
  else
    crawl_loop S W σ (get_domain v.2) [(v.2, 0)] [] 0 { enqueued := [(v.2, 0)] }

/-- The result dictionary of `DeepWebScraper.deep_crawl` and, equally, one
entry of the orchestrator's `scraped_content` list.  `url`, `domain` and
`pages` are `Option`s because the corresponding dict keys exist only on some
shapes; the page-shaped fields model the same dict being read as a page by
`analyze_deep_scrape_results`'s `[domain_result]` fallback. -/
structure DomainEntry where
  success : Bool := false
  url : Option String := none
  start_url : String := ""
  domain : Option String := none
  pages : Option (List ScrapeResult) := none
  error : String := ""
  title : String := ""
  plain_text : String := ""
  html : String := ""
  structured_data : StructuredData := {}
  tables : List Table := []
deriving DecidableEq, Repr

/-- Embedding of `DeepWebScraper.deep_crawl`. -/
def deep_crawl (S : DeepWebScraper) (W : World) (σ : OrderFn)
    (start_url : String) : DomainEntry :=
  let v := normalize_url start_url
  if !v.1 then { success := false, url := some start_url, error := "Invalid URL format" }
  else
    { success := true, start_url := v.2, domain := some (get_domain v.2),
      pages := some (deep_crawl_trace S W σ start_url).pages }

/-- Fuel-indexed version of `deep_crawl_trace`. -/
def deep_crawl_traceF (S : DeepWebScraper) (W : World) (σ : OrderFn)
    (start_url : String) (n : Nat) : Option CrawlTrace :=
  let v := normalize_url start_url
  if !v.1 then some {}
  else
    crawl_loopF S W σ (get_domain v.2) n [(v.2, 0)] [] 0 { enqueued := [(v.2, 0)] }

/-- Fuel-indexed version of `deep_crawl`. -/
def deep_crawlF (S : DeepWebScraper) (W : World) (σ : OrderFn)
    (start_url : String) (n : Nat) : Option DomainEntry :=
  let v := normalize_url start_url
  if !v.1 then some { success := false, url := some start_url, error := "Invalid URL format" }
  else
    (deep_crawl_traceF S W σ start_url n).map fun t =>
      { success := true, start_url := v.2, domain := some (get_domain v.2),
        pages := some t.pages }

/-! ## Orchestration (`DeepScraperService`) -/

/-- One search hit returned by `DuckDuckGoSearch.search`. -/
structure SearchResult where
  title : String := ""
  snippet : String := ""
  url : String := ""
deriving DecidableEq, Repr

/-- What `asyncio.gather(..., return_exceptions=True)` hands back for one
scrape task: either the task's result dictionary or the exception it raised. -/
inductive TaskOutcome where
  | ok (e : DomainEntry)
  | exn (msg : String)
deriving DecidableEq, Repr

/-- The dictionary returned by `DeepScraperService.search_and_deep_scrape`. -/
structure SessionResult where
  query : String := ""
  success : Bool := false
  timestamp : String := ""
  deep_crawl_enabled : Bool := true
  error : String := ""
  search_results : List SearchResult := []
  scraped_content : List DomainEntry := []
deriving DecidableEq, Repr

/-- The result-processing pass of `search_and_deep_scrape`: `gather` keeps
task order, and an exception at index `i` becomes a failure record carrying
`urls[i]` and the exception message. -/
def processTasks (urls : List String) (runTask : Nat → String → TaskOutcome) :
    List DomainEntry :=
  urls.enum.map fun p =>
    match runTask p.1 p.2 with
    | .ok e => e
    | .exn msg => { success := false, url := some p.2, error := msg }

/-- Embedding of `DeepScraperService.search_and_deep_scrape`.  The external
search call is modelled by its returned list `search_results`; the concurrent
scrape tasks (which may raise) are modelled by the oracle `runTask`, giving
the outcome of the task spawned for the `i`-th URL; `timestamp` stands for
`datetime.datetime.now().isoformat()`. -/
def search_and_deep_scrape (query : String) (search_results : List SearchResult)
    (perform_deep_crawl : Bool) (runTask : Nat → String → TaskOutcome)
    (timestamp : String) : SessionResult :=
  if search_results.isEmpty then
    { query := query, success := false, error := "No search results found",
      search_results := [], scraped_content := [] }
  else
    let urls := search_results.map (·.url)
    { query := query, success := true, timestamp := timestamp,
      deep_crawl_enabled := perform_deep_crawl,
      search_results := search_results,
      scraped_content := processTasks urls runTask }

/-! ## Analytics (`DeepScraperService.analyze_deep_scrape_results`) -/

/-- One record of `analysis["domain_insights"]`. -/
structure DomainInsight where
  domain : String := ""
  pages_crawled : Nat := 0
  tables_found : Nat := 0
  has_structured_data : Bool := false
deriving DecidableEq, Repr

/-- The analysis dictionary (the unused `common_entities` is omitted: the
source initialises it and never writes to it). -/
structure CrawlAnalysis where
  total_domains : Nat := 0
  successful_domains : Nat := 0
  total_pages : Nat := 0
  tables_found : Nat := 0
  structured_data_found : Nat := 0
  domain_insights : List DomainInsight := []
  content_summary : String := ""
deriving DecidableEq, Repr

/-- A domain-result dictionary read as a page dictionary, as the
`domain_pages = domain_result.get("pages", [domain_result])` fallback does. -/
def DomainEntry.asPage (e : DomainEntry) : ScrapeResult :=
  { success := e.success, url := e.url.getD "", title := e.title,
    plain_text := e.plain_text, html := e.html,
    structured_data := e.structured_data, tables := e.tables, error := e.error }

/-- `domain_result.get("pages", [domain_result])`. -/
def entryPages (e : DomainEntry) : List ScrapeResult :=
  match e.pages with
  | some ps => ps
  | none => [e.asPage]

/-- The domain-name fallback chain of `analyze_deep_scrape_results`. -/
def entryDomainName (e : DomainEntry) : String :=
  match e.domain with
  | some d => d
  | none =>
    match e.url with
    | some u => get_domain u
    | none => "unknown_domain"

/-- Mutable state threaded through the analysis loops. -/
structure AnalyzeAcc where
  total_pages : Nat := 0
  tables_found : Nat := 0
  structured_data_found : Nat := 0
  domain_insights : List DomainInsight := []
  all_text : List String := []
deriving DecidableEq, Repr

/-- One iteration of the inner `for page in domain_pages` loop. -/
def analyzePage (st : AnalyzeAcc × DomainInsight) (p : ScrapeResult) :
    AnalyzeAcc × DomainInsight :=
  let acc := { st.1 with all_text := st.1.all_text ++ [p.plain_text] }
  let ins := st.2
  let tcount := p.tables.length
  let acc :=
    if !p.tables.isEmpty then { acc with tables_found := acc.tables_found + tcount } else acc
  let ins :=
    if !p.tables.isEmpty then { ins with tables_found := ins.tables_found + tcount } else ins
  if sdHasAny p.structured_data then
    ({ acc with structured_data_found := acc.structured_data_found + 1 },
     { ins with has_structured_data := true })
  else (acc, ins)

/-- One iteration of the outer `for domain_result in results["scraped_content"]`
loop (failed domain results are skipped by the `continue`). -/
def analyzeDomain (acc : AnalyzeAcc) (e : DomainEntry) : AnalyzeAcc :=
  if !e.success then acc
  else
    let pages := entryPages e
    let acc := { acc with total_pages := acc.total_pages + pages.length }
    let ins0 : DomainInsight := { domain := entryDomainName e, pages_crawled := pages.length }
    let r := pages.foldl analyzePage (acc, ins0)
    { r.1 with domain_insights := r.1.domain_insights ++ [r.2] }

/-- Embedding of `DeepScraperService.analyze_deep_scrape_results`. -/
def analyze_deep_scrape_results (results : SessionResult) : CrawlAnalysis :=
  let sc := results.scraped_content
  let acc := sc.foldl analyzeDomain {}
  let combined := joinWith " " acc.all_text
  let combined2 := if 5000 < combined.length then pyTake combined 5000 ++ "..." else combined
  { total_domains := sc.length,
    successful_domains := (sc.map (fun r => if r.success then 1 else 0)).sum,
    total_pages := acc.total_pages,
    tables_found := acc.tables_found,
    structured_data_found := acc.structured_data_found,
    domain_insights := acc.domain_insights,
    content_summary := "Total content extracted: " ++ toString combined2.length ++ " characters" }

/-! ## Concrete fixtures for the testable properties -/

/-- A concrete valid set-listing: keep the first occurrence of each string. -/
def dedupF : List String → List String
  | [] => []
  | x :: xs => x :: (dedupF xs).filter (fun y => y != x)

/-- A second valid set-listing with a different iteration order. -/
def dedupRevF (xs : List String) : List String :=
  (dedupF xs).reverse

/-- A successful page whose anchors are `hrefs`. -/
def mkPage (hrefs : List String) : FetchOutcome :=
  .ok { html := "<html>", plain_text := "text", title := "t", hrefs := hrefs }

/-- Site where every page links to five fresh same-domain pages (three levels
are enough: the page budget stops every run long before the frontier). -/
def W5 : World := fun u =>
  if u == "https://a.com" then mkPage ["/c1", "/c2", "/c3", "/c4", "/c5"]
  else if u == "https://a.com/c1" then mkPage ["/d1", "/d2", "/d3", "/d4", "/d5"]
  else if u == "https://a.com/c2" then mkPage ["/e1", "/e2", "/e3", "/e4", "/e5"]
  else if u == "https://a.com/c3" then mkPage ["/f1", "/f2", "/f3", "/f4", "/f5"]
  else if u == "https://a.com/c4" then mkPage ["/g1", "/g2", "/g3", "/g4", "/g5"]
  else if u == "https://a.com/c5" then mkPage ["/h1", "/h2", "/h3", "/h4", "/h5"]
  else mkPage ["/x1", "/x2", "/x3", "/x4", "/x5"]

/-- Cyclic site `A -> B -> A`. -/
def Wcyc : World := fun u =>
  if u == "https://a.com" then mkPage ["https://a.com/b"]
  else if u == "https://a.com/b" then mkPage ["https://a.com"]
  else .exn "connection refused"

/-- Linear chain `A -> B -> C -> D`. -/
def Wchain : World := fun u =>
  if u == "https://a.com" then mkPage ["/b"]
  else if u == "https://a.com/b" then mkPage ["/c"]
  else if u == "https://a.com/c" then mkPage ["/d"]
  else if u == "https://a.com/d" then mkPage []
  else .exn "connection refused"

/-- Site whose seed fetch fails. -/
def Wfail : World := fun _ => .exn "connection refused"

/-- Seed links to a failing page `B` and a working page `C`. -/
def Wmix : World := fun u =>
  if u == "https://a.com" then mkPage ["/b", "/c"]
  else if u == "https://a.com/b" then .exn "connection refused"
  else if u == "https://a.com/c" then mkPage []
  else .exn "connection refused"

/-- A server that answers 404 with an error page body and does not raise. -/
def W404 : World := fun u =>
  if u == "https://a.com" then
    .ok { status := 404, title := "Not Found", html := "<html>404</html>",
          plain_text := "404" }
  else .exn "connection refused"

/-- Two same-depth links discovered on the seed page. -/
def Wpair : World := fun u =>
  if u == "https://a.com" then mkPage ["/p1", "/p2"]
  else if u == "https://a.com/p1" then mkPage []
  else if u == "https://a.com/p2" then mkPage []
  else .exn "connection refused"

/-- Scraper with the source's default configuration. -/
def Sdef : DeepWebScraper := {}

/-- Scraper with a page budget of three and a configurable depth. -/
def Sbudget (d : Nat) : DeepWebScraper := { max_depth := d, max_pages_per_domain := 3 }

/-- Scraper of the cycle scenario (`maxDepth=3`, `maxPages=10`). -/
def Scyc : DeepWebScraper := { max_depth := 3, max_pages_per_domain := 10 }

/-- Scraper of the chain scenario (`maxDepth=1`). -/
def Schain : DeepWebScraper := { max_depth := 1 }

/-- A one-row table used by the analysis example. -/
def exTable : Table := { id := 0, caption := "", headers := ["h"], rows := [["v"]] }

/-- First page of the successful example domain (one table). -/
def exPage1 : ScrapeResult :=
  { success := true, url := "https://d1.com/p1", plain_text := "alpha", tables := [exTable] }

/-- Second page of the successful example domain (one table). -/
def exPage2 : ScrapeResult :=
  { success := true, url := "https://d1.com/p2", plain_text := "beta", tables := [exTable] }

/-- A successful domain result with two crawled pages. -/
def exEntryOk : DomainEntry :=
  { success := true, domain := some "d1.com", pages := some [exPage1, exPage2] }

/-- A fully failed domain result. -/
def exEntryFail : DomainEntry :=
  { success := false, url := some "https://d2.com", error := "crawl failed" }

/-- Example session for the analysis aggregation property. -/
def exSession : SessionResult :=
  { query := "q", success := true, scraped_content := [exEntryOk, exEntryFail] }

/-- Two example search hits. -/
def exSearchResults : List SearchResult :=
  [{ title := "t1", snippet := "s1", url := "https://d1.com" },
   { title := "t2", snippet := "s2", url := "https://d2.com" }]

/-- Example task oracle: the first crawl returns a failed domain result, the
second raises. -/
def exRunTask : Nat → String → TaskOutcome := fun i u =>
  if i == 0 then .ok { success := false, url := some u, error := "crawl failed" }
  else .exn "boom"


/-! ## Bridge between the loop and its fuel-indexed version -/

theorem crawl_loopF_sound (S : DeepWebScraper) (W : World) (σ : OrderFn) (dom : String) :
    ∀ n q visited count acc t,
      crawl_loopF S W σ dom n q visited count acc = some t →
      crawl_loop S W σ dom q visited count acc = t := by
  intro n
  induction n with
  | zero =>
    intro q v c acc t h
    match q with
    | [] =>
      simp only [crawl_loopF, Option.some.injEq] at h
      simpa [crawl_loop] using h
    | _ :: _ => simp [crawl_loopF] at h
  | succ n ih =>
    intro q v c acc t h
    match q with
    | [] =>
      simp only [crawl_loopF, Option.some.injEq] at h
      simpa [crawl_loop] using h
    | (u, d) :: rest =>
      by_cases h1 : S.max_pages_per_domain ≤ c
      · simp only [crawl_loopF, if_pos h1, Option.some.injEq] at h
        simp only [crawl_loop, dif_pos h1]
        exact h
      · by_cases h2 : u ∈ v
        · simp only [crawl_loopF, if_neg h1, if_pos h2] at h
          simp only [crawl_loop, dif_neg h1, if_pos h2]
          exact ih _ _ _ _ _ h
        · by_cases h3 : (scrape_url S W σ u).success = true
          · simp only [crawl_loopF, if_neg h1, if_neg h2, h3, if_true] at h
            simp only [crawl_loop, dif_neg h1, if_neg h2, h3, if_true]
            exact ih _ _ _ _ _ h
          · simp only [crawl_loopF, if_neg h1, if_neg h2, h3, if_false] at h
            simp only [crawl_loop, dif_neg h1, if_neg h2, h3, if_false]
            exact ih _ _ _ _ _ h

theorem crawl_loopF_complete (S : DeepWebScraper) (W : World) (σ : OrderFn) (dom : String) :
    ∀ k L q visited count acc, S.max_pages_per_domain - count ≤ k → q.length ≤ L →
      ∃ n, crawl_loopF S W σ dom n q visited count acc =
        some (crawl_loop S W σ dom q visited count acc) := by
  intro k
  induction k with
  | zero =>
    intro L q v c acc hk hL
    match q with
    | [] => exact ⟨0, by simp [crawl_loopF, crawl_loop]⟩
    | (u, d) :: rest =>
      have h1 : S.max_pages_per_domain ≤ c := by omega
      exact ⟨1, by simp only [crawl_loopF, if_pos h1, crawl_loop, dif_pos h1]⟩
  | succ k ihk =>
    intro L
    induction L with
    | zero =>
      intro q v c acc hk hL
      match q with
      | [] => exact ⟨0, by simp [crawl_loopF, crawl_loop]⟩
      | _ :: _ => simp at hL
    | succ L ihL =>
      intro q v c acc hk hL
      match q with
      | [] => exact ⟨0, by simp [crawl_loopF, crawl_loop]⟩
      | (u, d) :: rest =>
        by_cases h1 : S.max_pages_per_domain ≤ c
        · exact ⟨1, by simp only [crawl_loopF, if_pos h1, crawl_loop, dif_pos h1]⟩
        · have hrest : rest.length ≤ L := by
            simp only [List.length_cons] at hL
            omega
          by_cases h2 : u ∈ v
          · obtain ⟨n, hn⟩ := ihL rest v c acc hk hrest
            refine ⟨n + 1, ?_⟩
            simp only [crawl_loopF, if_neg h1, if_pos h2, hn]
            simp only [crawl_loop, dif_neg h1, if_pos h2]
          · by_cases h3 : (scrape_url S W σ u).success = true
            · have hk' : S.max_pages_per_domain - (c + 1) ≤ k := by omega
              obtain ⟨n, hn⟩ :=
                ihk (rest ++ crawlNewLinks S dom (scrape_url S W σ u) (u :: v) d).length
                  (rest ++ crawlNewLinks S dom (scrape_url S W σ u) (u :: v) d)
                  (u :: v) (c + 1)
                  { acc with
                      fetched := acc.fetched ++ [(u, d)],
                      pages := acc.pages ++ [scrape_url S W σ u],
                      enqueued := acc.enqueued ++ crawlNewLinks S dom (scrape_url S W σ u) (u :: v) d }
                  hk' le_rfl
              refine ⟨n + 1, ?_⟩
              simp only [crawl_loopF, if_neg h1, if_neg h2, h3, if_true]
              simp only [crawl_loop, dif_neg h1, if_neg h2, h3, if_true]
              exact hn
            · obtain ⟨n, hn⟩ := ihL rest (u :: v) c
                { acc with fetched := acc.fetched ++ [(u, d)] } hk hrest
              refine ⟨n + 1, ?_⟩
              simp only [crawl_loopF, if_neg h1, if_neg h2, h3, if_false]
              simp only [crawl_loop, dif_neg h1, if_neg h2, h3, if_false]
              exact hn

/-- Any `some` answer of the fuel-indexed whole-crawl run is the run itself. -/
theorem deep_crawl_traceF_sound (S : DeepWebScraper) (W : World) (σ : OrderFn)
    (start_url : String) (n : Nat) (t : CrawlTrace)
    (h : deep_crawl_traceF S W σ start_url n = some t) :
    deep_crawl_trace S W σ start_url = t := by
  unfold deep_crawl_traceF at h
  unfold deep_crawl_trace
  by_cases hv : (normalize_url start_url).1
  · simp only [hv, Bool.not_true, if_false] at h ⊢
    exact crawl_loopF_sound _ _ _ _ _ _ _ _ _ _ h
  · simp only [Bool.not_eq_true] at hv
    simp only [hv, Bool.not_false, if_true, Option.some.injEq] at h
    simp only [hv, Bool.not_false, if_true]
    exact h

/-- Some fuel completes the whole-crawl run. -/
theorem deep_crawl_traceF_complete (S : DeepWebScraper) (W : World) (σ : OrderFn)
    (start_url : String) :
    ∃ n, deep_crawl_traceF S W σ start_url n =
      some (deep_crawl_trace S W σ start_url) := by
  unfold deep_crawl_traceF deep_crawl_trace
  by_cases hv : (normalize_url start_url).1
  · simp only [hv, Bool.not_true, if_false]
    exact crawl_loopF_complete S W σ _ _ 1 _ _ _ _ le_rfl (by simp)
  · simp only [Bool.not_eq_true] at hv
    simp only [hv, Bool.not_false, if_true]
    exact ⟨0, by simp⟩

/-- Any `some` answer of the fuel-indexed `deep_crawl` is `deep_crawl`. -/
theorem deep_crawlF_sound (S : DeepWebScraper) (W : World) (σ : OrderFn)
    (start_url : String) (n : Nat) (e : DomainEntry)
    (h : deep_crawlF S W σ start_url n = some e) :
    deep_crawl S W σ start_url = e := by
  simp only [deep_crawlF] at h
  simp only [deep_crawl]
  by_cases hv : (normalize_url start_url).1
  · simp only [hv, Bool.not_true, Bool.false_eq_true, if_false] at h ⊢
    match ht : deep_crawl_traceF S W σ start_url n with
    | none => simp [ht] at h
    | some t =>
      rw [ht] at h
      simp only [Option.map_some', Option.some.injEq] at h
      rw [deep_crawl_traceF_sound S W σ start_url n t ht]
      exact h
  · simp only [Bool.not_eq_true] at hv
    simp only [hv, Bool.not_false, if_true, Option.some.injEq] at h
    simp only [hv, Bool.not_false, if_true]
    exact h

/-! ## Loop invariants -/

/-- Every pair queued by `crawlNewLinks` sits at depth `d + 1`, and pairs are
queued only when `d < max_depth`. -/
theorem crawlNewLinks_depth (S : DeepWebScraper) (dom : String) (r : ScrapeResult)
    (v1 : List String) (d : Nat) :
    ∀ p ∈ crawlNewLinks S dom r v1 d, p.2 = d + 1 ∧ d < S.max_depth := by
  intro p hp
  unfold crawlNewLinks at hp
  by_cases hd : d < S.max_depth
  · simp only [hd, if_true, List.mem_map] at hp
    obtain ⟨l, _, rfl⟩ := hp
    exact ⟨rfl, hd⟩
  · simp [hd] at hp

/-- Page-budget invariant: the loop appends at most
`max_pages_per_domain - count` further pages. -/
theorem crawl_loopF_budget (S : DeepWebScraper) (W : World) (σ : OrderFn) (dom : String) :
    ∀ n q visited count acc t, count ≤ S.max_pages_per_domain →
      crawl_loopF S W σ dom n q visited count acc = some t →
      t.pages.length + count ≤ acc.pages.length + S.max_pages_per_domain := by
  intro n
  induction n with
  | zero =>
    intro q v c acc t hc h
    match q with
    | [] =>
      simp only [crawl_loopF, Option.some.injEq] at h
      subst h
      omega
    | _ :: _ => simp [crawl_loopF] at h
  | succ n ih =>
    intro q v c acc t hc h
    match q with
    | [] =>
      simp only [crawl_loopF, Option.some.injEq] at h
      subst h
      omega
    | (u, d) :: rest =>
      by_cases h1 : S.max_pages_per_domain ≤ c
      · simp only [crawl_loopF, if_pos h1, Option.some.injEq] at h
        subst h
        omega
      · by_cases h2 : u ∈ v
        · simp only [crawl_loopF, if_neg h1, if_pos h2] at h
          exact ih _ _ _ _ _ hc h
        · by_cases h3 : (scrape_url S W σ u).success = true
          · simp only [crawl_loopF, if_neg h1, if_neg h2, h3, if_true] at h
            have := ih _ _ _ _ _ (by omega : c + 1 ≤ S.max_pages_per_domain) h
            simp only [List.length_append, List.length_cons, List.length_nil] at this
            omega
          · simp only [crawl_loopF, if_neg h1, if_neg h2, h3, if_false] at h
            simpa using ih _ _ _ _ _ hc h

/-- Only successful scrape results are ever appended to `pages`. -/
theorem crawl_loopF_pages_success (S : DeepWebScraper) (W : World) (σ : OrderFn) (dom : String) :
    ∀ n q visited count acc t, (∀ p ∈ acc.pages, p.success = true) →
      crawl_loopF S W σ dom n q visited count acc = some t →
      ∀ p ∈ t.pages, p.success = true := by
  intro n
  induction n with
  | zero =>
    intro q v c acc t hacc h
    match q with
    | [] =>
      simp only [crawl_loopF, Option.some.injEq] at h
      subst h
      exact hacc
    | _ :: _ => simp [crawl_loopF] at h
  | succ n ih =>
    intro q v c acc t hacc h
    match q with
    | [] =>
      simp only [crawl_loopF, Option.some.injEq] at h
      subst h
      exact hacc
    | (u, d) :: rest =>
      by_cases h1 : S.max_pages_per_domain ≤ c
      · simp only [crawl_loopF, if_pos h1, Option.some.injEq] at h
        subst h
        exact hacc
      · by_cases h2 : u ∈ v
        · simp only [crawl_loopF, if_neg h1, if_pos h2] at h
          exact ih _ _ _ _ _ hacc h
        · by_cases h3 : (scrape_url S W σ u).success = true
          · simp only [crawl_loopF, if_neg h1, if_neg h2, h3, if_true] at h
            refine ih _ _ _ _ _ ?_ h
            intro p hp
            rcases List.mem_append.mp hp with hp | hp
            · exact hacc p hp
            · rcases List.mem_singleton.mp hp with rfl
              exact h3
          · simp only [crawl_loopF, if_neg h1, if_neg h2, h3, if_false] at h
            refine ih _ _ _ _ _ ?_ h
            exact hacc

/-- Fetch-once invariant: if the URLs fetched so far are distinct and all of
them are in the visited set, the final fetch trace has distinct URLs. -/
theorem crawl_loopF_fetched_nodup (S : DeepWebScraper) (W : World) (σ : OrderFn) (dom : String) :
    ∀ n q visited count acc t,
      (acc.fetched.map Prod.fst).Nodup → (∀ p ∈ acc.fetched, p.1 ∈ visited) →
      crawl_loopF S W σ dom n q visited count acc = some t →
      (t.fetched.map Prod.fst).Nodup := by
  intro n
  induction n with
  | zero =>
    intro q v c acc t hnd hvis h
    match q with
    | [] =>
      simp only [crawl_loopF, Option.some.injEq] at h
      subst h
      exact hnd
    | _ :: _ => simp [crawl_loopF] at h
  | succ n ih =>
    intro q v c acc t hnd hvis h
    match q with
    | [] =>
      simp only [crawl_loopF, Option.some.injEq] at h
      subst h
      exact hnd
    | (u, d) :: rest =>
      by_cases h1 : S.max_pages_per_domain ≤ c
      · simp only [crawl_loopF, if_pos h1, Option.some.injEq] at h
        subst h
        exact hnd
      · by_cases h2 : u ∈ v
        · simp only [crawl_loopF, if_neg h1, if_pos h2] at h
          exact ih _ _ _ _ _ hnd hvis h
        · have hnd' : ((acc.fetched ++ [(u, d)]).map Prod.fst).Nodup := by
            simp only [List.map_append, List.map_cons, List.map_nil]
            refine List.Nodup.append hnd (List.nodup_singleton u) ?_
            intro x hx hx'
            rcases List.mem_singleton.mp hx' with rfl
            rcases List.mem_map.mp hx with ⟨p, hp, rfl⟩
            exact h2 (hvis p hp)
          have hvis' : ∀ p ∈ acc.fetched ++ [(u, d)], p.1 ∈ u :: v := by
            intro p hp
            rcases List.mem_append.mp hp with hp | hp
            · exact List.mem_cons_of_mem u (hvis p hp)
            · rcases List.mem_singleton.mp hp with rfl
              exact List.mem_cons_self u v
          by_cases h3 : (scrape_url S W σ u).success = true
          · simp only [crawl_loopF, if_neg h1, if_neg h2, h3, if_true] at h
            exact ih _ _ _ _ _ hnd' hvis' h
          · simp only [crawl_loopF, if_neg h1, if_neg h2, h3, if_false] at h
            exact ih _ _ _ _ _ hnd' hvis' h

/-- Depth invariant: when every queued pair and every pair recorded so far
respects `max_depth`, so does everything the loop ever enqueues or fetches. -/
theorem crawl_loopF_depth (S : DeepWebScraper) (W : World) (σ : OrderFn) (dom : String) :
    ∀ n q visited count acc t,
      (∀ p ∈ q, p.2 ≤ S.max_depth) →
      (∀ p ∈ acc.enqueued, p.2 ≤ S.max_depth) →
      (∀ p ∈ acc.fetched, p.2 ≤ S.max_depth) →
      crawl_loopF S W σ dom n q visited count acc = some t →
      (∀ p ∈ t.enqueued, p.2 ≤ S.max_depth) ∧ (∀ p ∈ t.fetched, p.2 ≤ S.max_depth) := by
  intro n
  induction n with
  | zero =>
    intro q v c acc t hq he hf h
    match q with
    | [] =>
      simp only [crawl_loopF, Option.some.injEq] at h
      subst h
      exact ⟨he, hf⟩
    | _ :: _ => simp [crawl_loopF] at h
  | succ n ih =>
    intro q v c acc t hq he hf h
    match q with
    | [] =>
      simp only [crawl_loopF, Option.some.injEq] at h
      subst h
      exact ⟨he, hf⟩
    | (u, d) :: rest =>
      have hd : d ≤ S.max_depth := hq (u, d) (List.mem_cons_self _ _)
      have hrest : ∀ p ∈ rest, p.2 ≤ S.max_depth :=
        fun p hp => hq p (List.mem_cons_of_mem _ hp)
      by_cases h1 : S.max_pages_per_domain ≤ c
      · simp only [crawl_loopF, if_pos h1, Option.some.injEq] at h
        subst h
        exact ⟨he, hf⟩
      · by_cases h2 : u ∈ v
        · simp only [crawl_loopF, if_neg h1, if_pos h2] at h
          exact ih _ _ _ _ _ hrest he hf h
        · have hf' : ∀ p ∈ acc.fetched ++ [(u, d)], p.2 ≤ S.max_depth := by
            intro p hp
            rcases List.mem_append.mp hp with hp | hp
            · exact hf p hp
            · rcases List.mem_singleton.mp hp with rfl
              exact hd
          by_cases h3 : (scrape_url S W σ u).success = true
          · simp only [crawl_loopF, if_neg h1, if_neg h2, h3, if_true] at h
            have hnew : ∀ p ∈ crawlNewLinks S dom (scrape_url S W σ u) (u :: v) d,
                p.2 ≤ S.max_depth := by
              intro p hp
              obtain ⟨hp2, hplt⟩ := crawlNewLinks_depth S dom _ _ d p hp
              omega
            refine ih _ _ _ _ _ ?_ ?_ hf' h
            · intro p hp
              rcases List.mem_append.mp hp with hp | hp
              · exact hrest p hp
              · exact hnew p hp
            · intro p hp
              rcases List.mem_append.mp hp with hp | hp
              · exact he p hp
              · exact hnew p hp
          · simp only [crawl_loopF, if_neg h1, if_neg h2, h3, if_false] at h
            refine ih _ _ _ _ _ ?_ ?_ ?_ h
            · exact hrest
            · exact he
            · exact hf'

/-- A list whose elements are all the same number is sorted. -/
theorem pairwise_le_of_const (k : Nat) :
    ∀ l : List Nat, (∀ x ∈ l, x = k) → l.Pairwise (· ≤ ·) := by
  intro l
  induction l with
  | nil => intro _; exact List.Pairwise.nil
  | cons a l ih =>
    intro h
    refine List.Pairwise.cons ?_ (ih fun x hx => h x (List.mem_cons_of_mem _ hx))
    intro b hb
    rw [h a (List.mem_cons_self _ _), h b (List.mem_cons_of_mem _ hb)]

/-- Breadth-first invariant: with a depth-sorted queue whose depths pairwise
differ by at most one and a fetch trace below the whole queue, the depths in
the final fetch trace are non-decreasing. -/
theorem crawl_loopF_bfs (S : DeepWebScraper) (W : World) (σ : OrderFn) (dom : String) :
    ∀ n q visited count acc t,
      (q.map Prod.snd).Pairwise (· ≤ ·) →
      (∀ p ∈ q, ∀ p' ∈ q, p.2 ≤ p'.2 + 1) →
      (acc.fetched.map Prod.snd).Pairwise (· ≤ ·) →
      (∀ e ∈ acc.fetched, ∀ p ∈ q, e.2 ≤ p.2) →
      crawl_loopF S W σ dom n q visited count acc = some t →
      (t.fetched.map Prod.snd).Pairwise (· ≤ ·) := by
  intro n
  induction n with
  | zero =>
    intro q v c acc t hs hb hf hx h
    match q with
    | [] =>
      simp only [crawl_loopF, Option.some.injEq] at h
      subst h
      exact hf
    | _ :: _ => simp [crawl_loopF] at h
  | succ n ih =>
    intro q v c acc t hs hb hf hx h
    match q with
    | [] =>
      simp only [crawl_loopF, Option.some.injEq] at h
      subst h
      exact hf
    | (u, d) :: rest =>
      by_cases h1 : S.max_pages_per_domain ≤ c
      · simp only [crawl_loopF, if_pos h1, Option.some.injEq] at h
        subst h
        exact hf
      · have hs' : (d :: rest.map Prod.snd).Pairwise (· ≤ ·) := by simpa using hs
        have hdle : ∀ p ∈ rest, d ≤ p.2 := by
          intro p hp
          exact (List.pairwise_cons.mp hs').1 p.2 (List.mem_map_of_mem Prod.snd hp)
        have hsrest : (rest.map Prod.snd).Pairwise (· ≤ ·) := (List.pairwise_cons.mp hs').2
        have hbrest : ∀ p ∈ rest, ∀ p' ∈ rest, p.2 ≤ p'.2 + 1 :=
          fun p hp p' hp' => hb p (List.mem_cons_of_mem _ hp) p' (List.mem_cons_of_mem _ hp')
        have hxrest : ∀ e ∈ acc.fetched, ∀ p ∈ rest, e.2 ≤ p.2 :=
          fun e he p hp => hx e he p (List.mem_cons_of_mem _ hp)
        by_cases h2 : u ∈ v
        · simp only [crawl_loopF, if_neg h1, if_pos h2] at h
          exact ih _ _ _ _ _ hsrest hbrest hf hxrest h
        · have hfet' : ((acc.fetched ++ [(u, d)]).map Prod.snd).Pairwise (· ≤ ·) := by
            simp only [List.map_append, List.map_cons, List.map_nil]
            rw [List.pairwise_append]
            refine ⟨hf, List.pairwise_singleton _ _, ?_⟩
            intro a ha b hb'
            rcases List.mem_map.mp ha with ⟨e, he, rfl⟩
            have hbd : b = d := List.mem_singleton.mp hb'
            have hed : e.2 ≤ d := hx e he (u, d) (List.mem_cons_self _ _)
            omega
          by_cases h3 : (scrape_url S W σ u).success = true
          · simp only [crawl_loopF, if_neg h1, if_neg h2, h3, if_true] at h
            have hnew : ∀ p ∈ crawlNewLinks S dom (scrape_url S W σ u) (u :: v) d,
                p.2 = d + 1 :=
              fun p hp => (crawlNewLinks_depth S dom _ _ d p hp).1
            refine ih _ _ _ _ _ ?_ ?_ hfet' ?_ h
            · simp only [List.map_append]
              rw [List.pairwise_append]
              refine ⟨hsrest, ?_, ?_⟩
              · refine pairwise_le_of_const (d + 1) _ ?_
                intro x hxm
                rcases List.mem_map.mp hxm with ⟨p, hp, rfl⟩
                exact hnew p hp
              · intro a ha b hb'
                rcases List.mem_map.mp ha with ⟨p, hp, rfl⟩
                rcases List.mem_map.mp hb' with ⟨p', hp', rfl⟩
                rw [hnew p' hp']
                exact hb p (List.mem_cons_of_mem _ hp) (u, d) (List.mem_cons_self _ _)
            · intro p hp p' hp'
              rcases List.mem_append.mp hp with hp | hp <;>
                rcases List.mem_append.mp hp' with hp' | hp'
              · exact hbrest p hp p' hp'
              · rw [hnew p' hp']
                have := hb p (List.mem_cons_of_mem _ hp) (u, d) (List.mem_cons_self _ _)
                omega
              · rw [hnew p hp]
                have := hdle p' hp'
                omega
              · rw [hnew p hp, hnew p' hp']
                omega
            · intro e he p hp
              rcases List.mem_append.mp he with he | he
              · rcases List.mem_append.mp hp with hp | hp
                · exact hxrest e he p hp
                · rw [hnew p hp]
                  have := hx e he (u, d) (List.mem_cons_self _ _)
                  omega
              · rcases List.mem_singleton.mp he with rfl
                rcases List.mem_append.mp hp with hp | hp
                · exact hdle p hp
                · rw [hnew p hp]
                  omega
          · simp only [crawl_loopF, if_neg h1, if_neg h2, h3, if_false] at h
            refine ih _ _ _ _ _ hsrest hbrest ?_ ?_ h
            · exact hfet'
            · intro e he p hp
              rcases List.mem_append.mp he with he | he
              · exact hxrest e he p hp
              · rcases List.mem_singleton.mp he with rfl
                exact hdle p hp

/-! ## Set-listing helpers -/

/-- A duplicate-free list with exactly the members of `[a]` is `[a]`. -/
theorem setlist_singleton (a : String) (out : List String)
    (hnd : out.Nodup) (hmem : ∀ u, u ∈ out ↔ u ∈ [a]) : out = [a] := by
  match out, hnd with
  | [], _ => simpa using (hmem a).mpr (by simp)
  | [x], _ =>
    have hx := (hmem x).mp (by simp)
    simp only [List.mem_singleton] at hx
    simp [hx]
  | x :: y :: t, hnd =>
    have hx : x = a := by simpa using (hmem x).mp (by simp)
    have hy : y = a := by
      have := (hmem y).mp (by simp)
      simpa using this
    exfalso
    rcases List.nodup_cons.mp hnd with ⟨hxy, _⟩
    exact hxy (by simp [hx, hy])

theorem mem_dedupF : ∀ (xs : List String) (y : String), y ∈ dedupF xs ↔ y ∈ xs := by
  intro xs
  induction xs with
  | nil => intro y; simp [dedupF]
  | cons x xs ih =>
    intro y
    simp only [dedupF, List.mem_cons, List.mem_filter, ih, bne_iff_ne, ne_eq]
    constructor
    · rintro (rfl | ⟨hy, _⟩)
      · exact Or.inl rfl
      · exact Or.inr hy
    · rintro (rfl | hy)
      · exact Or.inl rfl
      · by_cases hxy : y = x
        · exact Or.inl hxy
        · exact Or.inr ⟨hy, hxy⟩

theorem nodup_dedupF : ∀ xs : List String, (dedupF xs).Nodup := by
  intro xs
  induction xs with
  | nil => simp [dedupF]
  | cons x xs ih =>
    simp only [dedupF]
    refine List.nodup_cons.mpr ⟨?_, List.Nodup.filter _ ih⟩
    intro hx
    rcases List.mem_filter.mp hx with ⟨_, hne⟩
    simp at hne

theorem validOrder_dedupF : ValidOrder dedupF :=
  fun xs => ⟨nodup_dedupF xs, fun u => mem_dedupF xs u⟩

theorem validOrder_dedupRevF : ValidOrder dedupRevF := by
  intro xs
  refine ⟨?_, ?_⟩
  · unfold dedupRevF
    exact List.nodup_reverse.mpr (nodup_dedupF xs)
  · intro u
    unfold dedupRevF
    rw [List.mem_reverse]
    exact mem_dedupF xs u

/-! ## Orchestrator helpers -/

theorem processTasks_length (urls : List String) (rt : Nat → String → TaskOutcome) :
    (processTasks urls rt).length = urls.length := by
  simp [processTasks]

theorem processTasks_getElem (urls : List String) (rt : Nat → String → TaskOutcome) (i : Nat) :
    (processTasks urls rt)[i]? =
      (urls[i]?).map fun u =>
        match rt i u with
        | .ok e => e
        | .exn msg => { success := false, url := some u, error := msg } := by
  simp only [processTasks, List.getElem?_map, List.getElem?_enum]
  cases urls[i]? <;> simp

/-! ## Analysis helpers -/

theorem sum_indicator_success (sc : List DomainEntry) :
    (sc.map (fun r => if r.success then 1 else 0)).sum =
      (sc.filter (fun r => r.success)).length := by
  induction sc with
  | nil => simp
  | cons e sc ih =>
    by_cases h : e.success <;> simp [List.filter_cons, h, ih, Nat.add_comm]

/-- One inner analysis step, in closed form. -/
theorem analyzePage_step (acc : AnalyzeAcc) (ins : DomainInsight) (p : ScrapeResult) :
    analyzePage (acc, ins) p =
      ({ acc with all_text := acc.all_text ++ [p.plain_text],
                  tables_found := acc.tables_found + p.tables.length,
                  structured_data_found := acc.structured_data_found +
                    (if sdHasAny p.structured_data then 1 else 0) },
       { ins with tables_found := ins.tables_found + p.tables.length,
                  has_structured_data := ins.has_structured_data || sdHasAny p.structured_data }) := by
  unfold analyzePage
  by_cases ht : p.tables.isEmpty <;> by_cases hsd : sdHasAny p.structured_data <;>
    simp_all [List.isEmpty_iff]

/-- The inner `for page in domain_pages` loop, in closed form. -/
theorem analyzePage_foldl (pages : List ScrapeResult) :
    ∀ (acc : AnalyzeAcc) (ins : DomainInsight),
      pages.foldl analyzePage (acc, ins) =
        ({ acc with all_text := acc.all_text ++ pages.map (fun p => p.plain_text),
                    tables_found := acc.tables_found +
                      (pages.map (fun p => p.tables.length)).sum,
                    structured_data_found := acc.structured_data_found +
                      (pages.filter (fun p => sdHasAny p.structured_data)).length },
         { ins with tables_found := ins.tables_found +
                      (pages.map (fun p => p.tables.length)).sum,
                    has_structured_data := ins.has_structured_data ||
                      pages.any (fun p => sdHasAny p.structured_data) }) := by
  induction pages with
  | nil => intro acc ins; simp
  | cons p ps ih =>
    intro acc ins
    rw [List.foldl_cons, analyzePage_step, ih]
    by_cases hsd : sdHasAny p.structured_data <;>
      simp [hsd, List.filter_cons, Nat.add_assoc, Bool.or_assoc, Nat.add_comm]

/-- A failed domain result is skipped by the analysis loop. -/
theorem analyzeDomain_skip (acc : AnalyzeAcc) (e : DomainEntry)
    (hs : ¬e.success = true) : analyzeDomain acc e = acc := by
  unfold analyzeDomain
  simp [hs]

/-- The numeric fields after analysing one successful domain result. -/
theorem analyzeDomain_fields (acc : AnalyzeAcc) (e : DomainEntry) (hs : e.success = true) :
    (analyzeDomain acc e).total_pages = acc.total_pages + (entryPages e).length ∧
    (analyzeDomain acc e).tables_found =
      acc.tables_found + ((entryPages e).map (fun p => p.tables.length)).sum ∧
    (analyzeDomain acc e).structured_data_found =
      acc.structured_data_found +
        ((entryPages e).filter (fun p => sdHasAny p.structured_data)).length := by
  unfold analyzeDomain
  simp only [hs, Bool.not_true, Bool.false_eq_true, if_false, analyzePage_foldl]
  simp

/-- The outer analysis loop, in closed form for the summary counters. -/
theorem analyzeDomain_foldl (sc : List DomainEntry) :
    ∀ acc : AnalyzeAcc,
      (sc.foldl analyzeDomain acc).total_pages =
        acc.total_pages +
          ((sc.filter (fun e => e.success)).map (fun e => (entryPages e).length)).sum ∧
      (sc.foldl analyzeDomain acc).tables_found =
        acc.tables_found +
          ((sc.filter (fun e => e.success)).map
            (fun e => ((entryPages e).map (fun p => p.tables.length)).sum)).sum ∧
      (sc.foldl analyzeDomain acc).structured_data_found =
        acc.structured_data_found +
          ((sc.filter (fun e => e.success)).map
            (fun e => ((entryPages e).filter (fun p => sdHasAny p.structured_data)).length)).sum := by
  induction sc with
  | nil => intro acc; simp
  | cons e sc ih =>
    intro acc
    rw [List.foldl_cons]
    by_cases hs : e.success = true
    · obtain ⟨f1, f2, f3⟩ := analyzeDomain_fields acc e hs
      obtain ⟨g1, g2, g3⟩ := ih (analyzeDomain acc e)
      refine ⟨?_, ?_, ?_⟩ <;>
        simp [List.filter_cons, hs, g1, g2, g3, f1, f2, f3, Nat.add_assoc]
    · rw [analyzeDomain_skip acc e hs]
      obtain ⟨g1, g2, g3⟩ := ih acc
      refine ⟨?_, ?_, ?_⟩ <;> simp [List.filter_cons, hs, g1, g2, g3]

/-! ## Single-step equations of the crawl loop -/

/-- With the page budget reached, the loop stops: every URL still queued is
abandoned without being fetched. -/
theorem crawl_loopF_stop (S : DeepWebScraper) (W : World) (σ : OrderFn) (dom u : String)
    (dd : Nat) (rest : List (String × Nat)) (v : List String) (c : Nat) (acc : CrawlTrace)
    (n : Nat) (h : S.max_pages_per_domain ≤ c) :
    crawl_loopF S W σ dom (n + 1) ((u, dd) :: rest) v c acc = some acc := by
  simp [crawl_loopF, h]

/-- An already-visited queue entry is skipped without a fetch. -/
theorem crawl_loopF_step_visited (S : DeepWebScraper) (W : World) (σ : OrderFn) (dom u : String)
    (dd : Nat) (rest : List (String × Nat)) (v : List String) (c : Nat) (acc : CrawlTrace)
    (n : Nat) (h1 : ¬S.max_pages_per_domain ≤ c) (h2 : u ∈ v) :
    crawl_loopF S W σ dom (n + 1) ((u, dd) :: rest) v c acc =
      crawl_loopF S W σ dom n rest v c acc := by
  simp [crawl_loopF, h1, h2]

/-- A successful fetch appends the page, counts toward the budget and enqueues
the page's filtered links. -/
theorem crawl_loopF_step_success (S : DeepWebScraper) (W : World) (σ : OrderFn) (dom u : String)
    (dd : Nat) (rest : List (String × Nat)) (v : List String) (c : Nat) (acc : CrawlTrace)
    (n : Nat) (h1 : ¬S.max_pages_per_domain ≤ c) (h2 : u ∉ v)
    (h3 : (scrape_url S W σ u).success = true) :
    crawl_loopF S W σ dom (n + 1) ((u, dd) :: rest) v c acc =
      crawl_loopF S W σ dom n
        (rest ++ crawlNewLinks S dom (scrape_url S W σ u) (u :: v) dd) (u :: v) (c + 1)
        { pages := acc.pages ++ [scrape_url S W σ u],
          fetched := acc.fetched ++ [(u, dd)],
          enqueued := acc.enqueued ++ crawlNewLinks S dom (scrape_url S W σ u) (u :: v) dd } := by
  simp [crawl_loopF, h1, h2, h3]

/-- A failed fetch is dropped: nothing is appended to `pages`, nothing is
enqueued, the budget counter is unchanged; only the visited set and the fetch
trace grow. -/
theorem crawl_loopF_step_fail (S : DeepWebScraper) (W : World) (σ : OrderFn) (dom u : String)
    (dd : Nat) (rest : List (String × Nat)) (v : List String) (c : Nat) (acc : CrawlTrace)
    (n : Nat) (h1 : ¬S.max_pages_per_domain ≤ c) (h2 : u ∉ v)
    (h3 : ¬(scrape_url S W σ u).success = true) :
    crawl_loopF S W σ dom (n + 1) ((u, dd) :: rest) v c acc =
      crawl_loopF S W σ dom n rest (u :: v) c
        { pages := acc.pages, fetched := acc.fetched ++ [(u, dd)],
          enqueued := acc.enqueued } := by
  simp [crawl_loopF, h1, h2, h3]

/-! ## Claim theorems -/

/-- Claim C1, counterexample.  The claim asserts that on a site where every
page links to 5 new same-domain pages, `maxPages=3` yields exactly 3
PageResults *regardless of maxDepth* (with `maxDepth ≥ 0`).  With
`maxDepth = 0` the crawl fetches only the seed: the `DomainCrawlResult` holds
1 page, not 3. -/
theorem deep_crawl_budget_maxdepth_zero_cex :
    ((deep_crawl (Sbudget 0) W5 dedupF "https://a.com").pages.getD []).length = 1 ∧
      (1 : Nat) ≠ 3 := by
  have h := deep_crawlF_sound (Sbudget 0) W5 dedupF "https://a.com" 5
      ((deep_crawlF (Sbudget 0) W5 dedupF "https://a.com" 5).getD {})
      (by decide)
  rw [h]
  decide

set_option maxHeartbeats 1000000 in
/-- Claim C1 (amended): for every seed URL, `maxDepth ≥ 0` and
`maxPages ≥ 1`, the result of `DeepWebScraper.deep_crawl` contains at most
`maxPages` pages; on a site where every page links to 5 new same-domain
pages, `maxPages = 3` yields exactly 3 PageResults for every `maxDepth ≥ 1`
(with `maxDepth = 0` only the seed page is fetched); and once the budget is
reached the loop returns with the remaining queued URLs abandoned, without
fetching them. -/
theorem deep_crawl_page_budget :
    (∀ (S : DeepWebScraper) (W : World) (σ : OrderFn) (u : String) (ps : List ScrapeResult),
        (deep_crawl S W σ u).pages = some ps → ps.length ≤ S.max_pages_per_domain) ∧
    (∀ d : Nat, 1 ≤ d →
        ((deep_crawl (Sbudget d) W5 dedupF "https://a.com").pages.getD []).length = 3) ∧
    (∀ (S : DeepWebScraper) (W : World) (σ : OrderFn) (dom u : String) (dd : Nat)
        (rest : List (String × Nat)) (v : List String) (c : Nat) (acc : CrawlTrace) (n : Nat),
        S.max_pages_per_domain ≤ c →
        crawl_loopF S W σ dom (n + 1) ((u, dd) :: rest) v c acc = some acc) := by
  refine ⟨?_, ?_, ?_⟩
  · intro S W σ u ps h
    by_cases hv : (normalize_url u).1
    · simp only [deep_crawl, hv, Bool.not_true, Bool.false_eq_true, if_false,
        Option.some.injEq] at h
      obtain ⟨n, hn⟩ := deep_crawl_traceF_complete S W σ u
      simp only [deep_crawl_traceF, hv, Bool.not_true, Bool.false_eq_true, if_false] at hn
      have hb := crawl_loopF_budget S W σ _ n _ _ _ _ _ (Nat.zero_le _) hn
      rw [← h]
      simpa using hb
    · simp only [Bool.not_eq_true] at hv
      simp only [deep_crawl, hv, Bool.not_false, if_true] at h
      simp at h
  · intro d hd
    rcases Nat.lt_or_ge d 2 with h2 | h2
    · have hd1 : d = 1 := by omega
      subst hd1
      have h := deep_crawlF_sound (Sbudget 1) W5 dedupF "https://a.com" 8
          ((deep_crawlF (Sbudget 1) W5 dedupF "https://a.com" 8).getD {})
          (by decide)
      rw [h]
      decide
    · have h0 : 0 < d := by omega
      have h1 : 1 < d := h2
      have hm : (deep_crawl_traceF (Sbudget d) W5 dedupF "https://a.com" 4).map
          (fun t => t.pages.length) = some 3 := by
        simp +decide [deep_crawl_traceF, crawl_loopF, crawlNewLinks, Sbudget, h0, h1,
          scrape_url, normalize_url, url_pattern_match, regexCore, stripHttpScheme,
          splitHostPath, hostOk, splitOnChar, isHostLabel, isTldPart, pathOk, isPySpace,
          pyStartsWith, listStarts, get_domain, pySplitScheme, splitAtColon, isSchemeChar,
          isAuthEnd, W5, mkPage, dedupF, extract_links_list, normalize_internal_url, urljoin,
          baseRootPath, resolvePath, dotFold, joinWith, file_extensions, pyEndsWith,
          pyToLower, pyTake, is_same_domain, uses_relative]
      match ht : deep_crawl_traceF (Sbudget d) W5 dedupF "https://a.com" 4 with
      | none => rw [ht] at hm; simp at hm
      | some t =>
        have hs := deep_crawl_traceF_sound _ _ _ _ 4 t ht
        rw [ht] at hm
        simp only [Option.map_some', Option.some.injEq] at hm
        have hv : (normalize_url "https://a.com").1 = true := by decide
        simp only [deep_crawl, hv, Bool.not_true, Bool.false_eq_true, if_false]
        rw [hs]
        simpa using hm
  · intro S W σ dom u dd rest v c acc n h
    exact crawl_loopF_stop S W σ dom u dd rest v c acc n h

/-- Claim C1, witness: the amended theorem applied at a concrete budget-3
crawl of the 5-links site with `maxDepth = 1`, and the stop equation at a
concrete reached budget. -/
theorem deep_crawl_page_budget_witness :
    ((deep_crawl (Sbudget 1) W5 dedupF "https://a.com").pages.getD []).length = 3 ∧
      crawl_loopF Sdef Wfail dedupF "a.com" 3 [("https://a.com/x", 0)] [] 5 {} = some {} :=
  ⟨deep_crawl_page_budget.2.1 1 (by decide),
   deep_crawl_page_budget.2.2 Sdef Wfail dedupF "a.com" "https://a.com/x" 0 [] [] 5 {} 2
     (by decide)⟩

/-- Claim C2: in every domain crawl each URL is passed to `scrape_url` at most
once (the fetch trace has pairwise-distinct URLs), the loop terminates (some
finite fuel completes it), and on the cyclic site `A -> B -> A` with
`maxDepth=3`, `maxPages=10` exactly `A` and `B` are fetched, once each. -/
theorem deep_crawl_fetch_at_most_once :
    (∀ (S : DeepWebScraper) (W : World) (σ : OrderFn) (u : String),
        ((deep_crawl_trace S W σ u).fetched.map Prod.fst).Nodup) ∧
    (∀ (S : DeepWebScraper) (W : World) (σ : OrderFn) (u : String),
        ∃ n, deep_crawl_traceF S W σ u n = some (deep_crawl_trace S W σ u)) ∧
    (deep_crawl_trace Scyc Wcyc dedupF "https://a.com").fetched.map Prod.fst =
      ["https://a.com", "https://a.com/b"] := by
  refine ⟨?_, deep_crawl_traceF_complete, ?_⟩
  · intro S W σ u
    unfold deep_crawl_trace
    by_cases hv : (normalize_url u).1
    · simp only [hv, Bool.not_true, Bool.false_eq_true, if_false]
      obtain ⟨n, hn⟩ := crawl_loopF_complete S W σ (get_domain (normalize_url u).2)
        (S.max_pages_per_domain + 1) 1 [((normalize_url u).2, 0)] [] 0
        { enqueued := [((normalize_url u).2, 0)] } (by omega) (by simp)
      exact crawl_loopF_fetched_nodup S W σ _ n _ _ _ _ _ (by simp) (by simp) hn
    · simp only [Bool.not_eq_true] at hv
      simp [hv]
  · have h := deep_crawl_traceF_sound Scyc Wcyc dedupF "https://a.com" 8
        ((deep_crawl_traceF Scyc Wcyc dedupF "https://a.com" 8).getD {}) (by decide)
    rw [h]
    decide

/-- Claim C3: every `(url, depth)` pair a crawl ever enqueues or fetches has
`depth ≤ maxDepth`, and on the linear chain `A -> B -> C -> D` with
`maxDepth=1` exactly `A` and `B` end up in `pages`. -/
theorem deep_crawl_depth_bounded :
    (∀ (S : DeepWebScraper) (W : World) (σ : OrderFn) (u : String),
        (∀ p ∈ (deep_crawl_trace S W σ u).enqueued, p.2 ≤ S.max_depth) ∧
        (∀ p ∈ (deep_crawl_trace S W σ u).fetched, p.2 ≤ S.max_depth)) ∧
    (deep_crawl_trace Schain Wchain dedupF "https://a.com").pages.map (fun p => p.url) =
      ["https://a.com", "https://a.com/b"] := by
  constructor
  · intro S W σ u
    unfold deep_crawl_trace
    by_cases hv : (normalize_url u).1
    · simp only [hv, Bool.not_true, Bool.false_eq_true, if_false]
      obtain ⟨n, hn⟩ := crawl_loopF_complete S W σ (get_domain (normalize_url u).2)
        (S.max_pages_per_domain + 1) 1 [((normalize_url u).2, 0)] [] 0
        { enqueued := [((normalize_url u).2, 0)] } (by omega) (by simp)
      exact crawl_loopF_depth S W σ _ n _ _ _ _ _ (by simp) (by simp) (by simp) hn
    · simp only [Bool.not_eq_true] at hv
      simp [hv]
  · have h := deep_crawl_traceF_sound Schain Wchain dedupF "https://a.com" 8
        ((deep_crawl_traceF Schain Wchain dedupF "https://a.com" 8).getD {}) (by decide)
    rw [h]
    decide

/-- Claim C3, witness: the depth-bound theorem applied to the seed pair of the
chain crawl. -/
theorem deep_crawl_depth_bounded_witness :
    (("https://a.com", 0) : String × Nat).2 ≤ Schain.max_depth := by
  have h := deep_crawl_traceF_sound Schain Wchain dedupF "https://a.com" 8
      ((deep_crawl_traceF Schain Wchain dedupF "https://a.com" 8).getD {}) (by decide)
  exact (deep_crawl_depth_bounded.1 Schain Wchain dedupF "https://a.com").1
    ("https://a.com", 0) (by rw [h]; decide)

/-- Claim C4, counterexample.  The claim asserts a failed fetch's PageResult
is still appended to `pages`; in the code `domain_page_count` and the append
are both guarded by `if result["success"]`, so a crawl whose seed fetch fails
(connection refused) records the fetch in no page at all: `pages = some []`
even though the seed was fetched and produced a failed result. -/
theorem deep_crawl_failed_page_dropped_cex :
    (deep_crawl Sdef Wfail dedupF "https://a.com").pages = some [] ∧
    (scrape_url Sdef Wfail dedupF "https://a.com").success = false ∧
    (deep_crawl_trace Sdef Wfail dedupF "https://a.com").fetched = [("https://a.com", 0)] := by
  have h := deep_crawlF_sound Sdef Wfail dedupF "https://a.com" 4
      ((deep_crawlF Sdef Wfail dedupF "https://a.com" 4).getD {}) (by decide)
  have ht := deep_crawl_traceF_sound Sdef Wfail dedupF "https://a.com" 4
      ((deep_crawl_traceF Sdef Wfail dedupF "https://a.com" 4).getD {}) (by decide)
  rw [h, ht]
  decide

/-- Claim C4 (amended): a failed fetch's PageResult is dropped, not appended:
every PageResult in a DomainCrawlResult's `pages` has `success = true`, and
the failure step leaves `pages`, the queue additions and the page counter
untouched — only the visited set and the fetch trace grow. -/
theorem deep_crawl_failed_pages_not_recorded :
    (∀ (S : DeepWebScraper) (W : World) (σ : OrderFn) (u : String) (ps : List ScrapeResult),
        (deep_crawl S W σ u).pages = some ps → ∀ p ∈ ps, p.success = true) ∧
    (∀ (S : DeepWebScraper) (W : World) (σ : OrderFn) (dom u : String) (dd : Nat)
        (rest : List (String × Nat)) (v : List String) (c : Nat) (acc : CrawlTrace) (n : Nat),
        ¬S.max_pages_per_domain ≤ c → u ∉ v → ¬(scrape_url S W σ u).success = true →
        crawl_loopF S W σ dom (n + 1) ((u, dd) :: rest) v c acc =
          crawl_loopF S W σ dom n rest (u :: v) c
            { pages := acc.pages, fetched := acc.fetched ++ [(u, dd)],
              enqueued := acc.enqueued }) := by
  constructor
  · intro S W σ u ps h
    by_cases hv : (normalize_url u).1
    · simp only [deep_crawl, hv, Bool.not_true, Bool.false_eq_true, if_false,
        Option.some.injEq] at h
      obtain ⟨n, hn⟩ := deep_crawl_traceF_complete S W σ u
      simp only [deep_crawl_traceF, hv, Bool.not_true, Bool.false_eq_true, if_false] at hn
      have hs := crawl_loopF_pages_success S W σ _ n _ _ _ _ _ (by simp) hn
      rw [← h]
      exact hs
    · simp only [Bool.not_eq_true] at hv
      simp only [deep_crawl, hv, Bool.not_false, if_true] at h
      simp at h
  · intro S W σ dom u dd rest v c acc n h1 h2 h3
    exact crawl_loopF_step_fail S W σ dom u dd rest v c acc n h1 h2 h3

/-- Claim C4, witness: on the mixed site (seed links to a failing page `B`
and a working page `C`) the seed's PageResult is in `pages` and is
successful, and the failure step equation at a concrete failing fetch. -/
theorem deep_crawl_failed_pages_not_recorded_witness :
    (scrape_url Sdef Wmix dedupF "https://a.com").success = true ∧
    crawl_loopF Sdef Wfail dedupF "a.com" 1 [("https://a.com", 0)] [] 0 {} =
      crawl_loopF Sdef Wfail dedupF "a.com" 0 [] ["https://a.com"] 0
        { pages := [], fetched := [("https://a.com", 0)], enqueued := [] } := by
  constructor
  · have h := deep_crawlF_sound Sdef Wmix dedupF "https://a.com" 8
        ((deep_crawlF Sdef Wmix dedupF "https://a.com" 8).getD {}) (by decide)
    refine deep_crawl_failed_pages_not_recorded.1 Sdef Wmix dedupF "https://a.com"
        ((deep_crawl Sdef Wmix dedupF "https://a.com").pages.getD [])
        ?_ (scrape_url Sdef Wmix dedupF "https://a.com") ?_
    · rw [h]
      rfl
    · rw [h]
      decide
  · exact deep_crawl_failed_pages_not_recorded.2 Sdef Wfail dedupF "a.com"
      "https://a.com" 0 [] [] 0 {} 0 (by decide) (by decide) (by decide)

/-- Claim C5, counterexample.  The claim asserts a non-2xx response yields
`success=false`; `page.goto` does not raise on HTTP error statuses, `arun`
never reads the response status, and `scrape_url` trusts whatever rendered
content it gets: a 404 page is returned with `success = true`. -/
theorem scrape_url_non2xx_success_cex :
    W404 "https://a.com" = FetchOutcome.ok
      { status := 404, title := "Not Found", html := "<html>404</html>",
        plain_text := "404" } ∧
    ¬(200 ≤ (404 : Nat) ∧ (404 : Nat) < 300) ∧
    (scrape_url Sdef W404 dedupF "https://a.com").success = true := by
  decide

/-- Claim C5 (amended): for every URL whose fetch raises (network error) or
times out, `scrape_url` returns — rather than raises — a result with
`success=false`, the error message set (the fixed timeout message is never
empty), and every link/text/HTML field empty; a fetch that returns a rendered
page is reported as `success=true` regardless of its HTTP status, which the
code never inspects. -/
theorem scrape_url_fault_result :
    (∀ (S : DeepWebScraper) (W : World) (σ : OrderFn) (url msg : String),
        (normalize_url url).1 = true → W (normalize_url url).2 = .exn msg →
        scrape_url S W σ url =
          { success := false, url := (normalize_url url).2, error := msg }) ∧
    (∀ (S : DeepWebScraper) (W : World) (σ : OrderFn) (url : String),
        (normalize_url url).1 = true → W (normalize_url url).2 = .timeout →
        scrape_url S W σ url =
          { success := false, url := (normalize_url url).2,
            error := "Operation timed out after " ++ toString S.timeout ++ " seconds" } ∧
          "Operation timed out after " ++ toString S.timeout ++ " seconds" ≠ "") ∧
    (∀ (S : DeepWebScraper) (W : World) (σ : OrderFn) (url : String) (pg : PageData),
        (normalize_url url).1 = true → W (normalize_url url).2 = .ok pg →
        (scrape_url S W σ url).success = true) := by
  refine ⟨?_, ?_, ?_⟩
  · intro S W σ url msg hv hW
    simp only [scrape_url, hv, Bool.not_true, Bool.false_eq_true, if_false, hW]
  · intro S W σ url hv hW
    constructor
    · simp only [scrape_url, hv, Bool.not_true, Bool.false_eq_true, if_false, hW]
    · intro hcontra
      have hl := congrArg String.length hcontra
      rw [String.length_append, String.length_append] at hl
      have h26 : String.length "Operation timed out after " = 26 := rfl
      have h8 : String.length " seconds" = 8 := rfl
      have h0 : String.length "" = 0 := rfl
      omega
  · intro S W σ url pg hv hW
    simp only [scrape_url, hv, Bool.not_true, Bool.false_eq_true, if_false, hW]

/-- Claim C5, witness: the fault theorem applied to a concrete refused
connection. -/
theorem scrape_url_fault_result_witness :
    scrape_url Sdef Wfail dedupF "https://a.com" =
      { success := false, url := "https://a.com", error := "connection refused" } :=
  scrape_url_fault_result.1 Sdef Wfail dedupF "https://a.com" "connection refused"
    (by decide) rfl

/-- Claim C6, counterexample.  The claim asserts resolved URLs "not using the
http/https scheme" yield no link; the code only checks the string prefix
`http`, so an href with scheme `httpfoo` (not http, not https) resolves to
itself, passes the prefix check and the domain check, and is extracted as a
link. -/
theorem normalize_internal_url_nonhttp_scheme_cex :
    normalize_internal_url "https://a.com" "httpfoo://a.com/x" = some "httpfoo://a.com/x" ∧
    is_same_domain "https://a.com" "httpfoo://a.com/x" = true ∧
    extract_links_list "https://a.com" ["httpfoo://a.com/x"] = ["httpfoo://a.com/x"] ∧
    pySplitScheme "httpfoo://a.com/x" = some ("httpfoo", "//a.com/x") ∧
    "httpfoo" ≠ "http" ∧ "httpfoo" ≠ "https" := by
  decide

/-- Claim C6 (amended): `extract_links` keeps a link only if
`normalize_internal_url` accepts it and it is same-domain; empty, `#`,
`javascript:`, `mailto:` and `tel:` hrefs yield no link, as do resolved URLs
not starting with the literal prefix `http` (rather than: not using the
http/https scheme) and URLs ending in a denylisted extension; every other
href yields the absolute URL joined against the base; and the four-anchor
example extracts exactly `https://a.com/page1`. -/
theorem extract_links_filtering :
    (∀ base href : String,
        href = "" ∨ pyStartsWith href "#" = true ∨ pyStartsWith href "javascript:" = true ∨
          pyStartsWith href "mailto:" = true ∨ pyStartsWith href "tel:" = true →
        normalize_internal_url base href = none) ∧
    (∀ base href : String, pyStartsWith (urljoin base href) "http" = false →
        normalize_internal_url base href = none) ∧
    (∀ base href ext : String, ext ∈ file_extensions →
        pyEndsWith (pyToLower (urljoin base href)) ext = true →
        normalize_internal_url base href = none) ∧
    (∀ base href : String, href ≠ "" → pyStartsWith href "#" = false →
        pyStartsWith href "javascript:" = false → pyStartsWith href "mailto:" = false →
        pyStartsWith href "tel:" = false →
        pyStartsWith (urljoin base href) "http" = true →
        (∀ ext ∈ file_extensions, pyEndsWith (pyToLower (urljoin base href)) ext = false) →
        normalize_internal_url base href = some (urljoin base href)) ∧
    (∀ (base : String) (hrefs : List String) (u : String),
        u ∈ extract_links_list base hrefs ↔
          ∃ h ∈ hrefs, normalize_internal_url base h = some u ∧
            is_same_domain base u = true) ∧
    (extract_links_list "https://a.com" ["#top", "mailto:x@y.com", "/page1", "report.pdf"] =
        ["https://a.com/page1"] ∧
      ∀ out : List String, out.Nodup →
        (∀ u, u ∈ out ↔ u ∈ extract_links_list "https://a.com"
          ["#top", "mailto:x@y.com", "/page1", "report.pdf"]) →
        out = ["https://a.com/page1"]) := by
  refine ⟨?_, ?_, ?_, ?_, ?_, ?_, ?_⟩
  · intro base href hcase
    have hc : (href == "" || pyStartsWith href "#" || pyStartsWith href "javascript:" ||
        pyStartsWith href "mailto:" || pyStartsWith href "tel:") = true := by
      rcases hcase with h | h | h | h | h <;> simp [h]
    simp [normalize_internal_url, hc]
  · intro base href hh
    by_cases hc : (href == "" || pyStartsWith href "#" || pyStartsWith href "javascript:" ||
        pyStartsWith href "mailto:" || pyStartsWith href "tel:") = true
    · simp [normalize_internal_url, hc]
    · simp only [Bool.not_eq_true] at hc
      simp [normalize_internal_url, hc, hh]
  · intro base href ext hmem hend
    by_cases hc : (href == "" || pyStartsWith href "#" || pyStartsWith href "javascript:" ||
        pyStartsWith href "mailto:" || pyStartsWith href "tel:") = true
    · simp [normalize_internal_url, hc]
    · by_cases hh : pyStartsWith (urljoin base href) "http" = true
      · have hany : file_extensions.any
            (fun e => pyEndsWith (pyToLower (urljoin base href)) e) = true :=
          List.any_eq_true.mpr ⟨ext, hmem, hend⟩
        simp only [Bool.not_eq_true] at hc
        simp [normalize_internal_url, hc, hh, hany]
      · simp only [Bool.not_eq_true] at hc hh
        simp [normalize_internal_url, hc, hh]
  · intro base href h0 h1 h2 h3 h4 hh hexts
    have h0' : (href == "") = false := beq_eq_false_iff_ne.mpr h0
    have hany : file_extensions.any
        (fun e => pyEndsWith (pyToLower (urljoin base href)) e) = false := by
      rw [List.any_eq_false]
      intro e he
      simp [hexts e he]
    simp [normalize_internal_url, h0', h1, h2, h3, h4, hh, hany]
  · intro base hrefs u
    simp only [extract_links_list, List.mem_filterMap]
    constructor
    · rintro ⟨h, hh, hmatch⟩
      refine ⟨h, hh, ?_⟩
      match hn : normalize_internal_url base h with
      | none => rw [hn] at hmatch; simp at hmatch
      | some u' =>
        rw [hn] at hmatch
        by_cases hsd : is_same_domain base u' = true
        · simp only [hsd, if_true, Option.some.injEq] at hmatch
          subst hmatch
          exact ⟨rfl, hsd⟩
        · simp only [Bool.not_eq_true] at hsd
          simp [hsd] at hmatch
    · rintro ⟨h, hh, hn, hsd⟩
      exact ⟨h, hh, by rw [hn]; simp [hsd]⟩
  · decide
  · intro out hnd hmem
    have he : extract_links_list "https://a.com"
        ["#top", "mailto:x@y.com", "/page1", "report.pdf"] = ["https://a.com/page1"] := by
      decide
    rw [he] at hmem
    exact setlist_singleton _ _ hnd hmem

/-- Claim C6, witness: the filtering theorem applied to the four concrete
anchors of the spec's example. -/
theorem extract_links_filtering_witness :
    normalize_internal_url "https://a.com" "/page1" = some (urljoin "https://a.com" "/page1") ∧
    normalize_internal_url "https://a.com" "mailto:x@y.com" = none ∧
    normalize_internal_url "https://a.com" "#top" = none ∧
    normalize_internal_url "https://a.com" "report.pdf" = none :=
  ⟨extract_links_filtering.2.2.2.1 "https://a.com" "/page1" (by decide) (by decide) (by decide)
      (by decide) (by decide) (by decide) (by decide),
   extract_links_filtering.1 "https://a.com" "mailto:x@y.com"
     (Or.inr (Or.inr (Or.inr (Or.inl (by decide))))),
   extract_links_filtering.1 "https://a.com" "#top" (Or.inr (Or.inl (by decide))),
   extract_links_filtering.2.2.1 "https://a.com" "report.pdf" ".pdf" (by decide) (by decide)⟩

/-- Claim C7, counterexample.  The claim asserts any two runs fetch the same
URLs in the same order, with same-depth links enqueued in document order; the
code builds `links` via `list(set(links))`, whose iteration order is
unspecified, so two valid set-listing orders produce different fetch orders
(and neither is tied to document order). -/
theorem deep_crawl_order_not_reproducible_cex :
    ValidOrder dedupF ∧ ValidOrder dedupRevF ∧
    (deep_crawl_trace Sdef Wpair dedupF "https://a.com").fetched.map Prod.fst =
      ["https://a.com", "https://a.com/p1", "https://a.com/p2"] ∧
    (deep_crawl_trace Sdef Wpair dedupRevF "https://a.com").fetched.map Prod.fst =
      ["https://a.com", "https://a.com/p2", "https://a.com/p1"] ∧
    deep_crawl Sdef Wpair dedupF "https://a.com" ≠
      deep_crawl Sdef Wpair dedupRevF "https://a.com" := by
  refine ⟨validOrder_dedupF, validOrder_dedupRevF, ?_, ?_, ?_⟩
  · have h := deep_crawl_traceF_sound Sdef Wpair dedupF "https://a.com" 8
        ((deep_crawl_traceF Sdef Wpair dedupF "https://a.com" 8).getD {}) (by decide)
    rw [h]
    decide
  · have h := deep_crawl_traceF_sound Sdef Wpair dedupRevF "https://a.com" 8
        ((deep_crawl_traceF Sdef Wpair dedupRevF "https://a.com" 8).getD {}) (by decide)
    rw [h]
    decide
  · have h1 := deep_crawlF_sound Sdef Wpair dedupF "https://a.com" 8
        ((deep_crawlF Sdef Wpair dedupF "https://a.com" 8).getD {}) (by decide)
    have h2 := deep_crawlF_sound Sdef Wpair dedupRevF "https://a.com" 8
        ((deep_crawlF Sdef Wpair dedupRevF "https://a.com" 8).getD {}) (by decide)
    rw [h1, h2]
    decide

/-- Claim C7 (amended): traversal is breadth-first by enqueue order — for any
fixed set-iteration order the fetched depths are non-decreasing — but the
enqueue order of same-depth links from one page is the iteration order of a
Python string set, not document order, and the pages sequence is therefore
not reproducible across runs with different hash seeds. -/
theorem deep_crawl_bfs_depth_monotone :
    ∀ (S : DeepWebScraper) (W : World) (σ : OrderFn) (u : String),
      ((deep_crawl_trace S W σ u).fetched.map Prod.snd).Pairwise (· ≤ ·) := by
  intro S W σ u
  unfold deep_crawl_trace
  by_cases hv : (normalize_url u).1
  · simp only [hv, Bool.not_true, Bool.false_eq_true, if_false]
    obtain ⟨n, hn⟩ := crawl_loopF_complete S W σ (get_domain (normalize_url u).2)
      (S.max_pages_per_domain + 1) 1 [((normalize_url u).2, 0)] [] 0
      { enqueued := [((normalize_url u).2, 0)] } (by omega) (by simp)
    refine crawl_loopF_bfs S W σ _ n _ _ _ _ _ ?_ ?_ ?_ ?_ hn
    · simp
    · intro p hp p' hp'
      simp only [List.mem_singleton] at hp hp'
      subst hp
      subst hp'
      simp
    · simp
    · simp
  · simp only [Bool.not_eq_true] at hv
    simp [hv]

/-- Claim C8: the session has `success=false` (with the fixed error string)
exactly when the Search Client returned no results; with at least one result
the session has `success=true` no matter how the per-domain tasks fared, and
entry `i` of `scraped_content` is task `i`'s own outcome — an exception
becomes a failure record for that URL instead of aborting the batch. -/
theorem search_and_deep_scrape_success_iff :
    ∀ (q ts : String) (dc : Bool) (sr : List SearchResult)
      (rt : Nat → String → TaskOutcome),
      ((search_and_deep_scrape q sr dc rt ts).success = false ↔ sr = []) ∧
      (sr = [] → (search_and_deep_scrape q sr dc rt ts).error = "No search results found" ∧
        (search_and_deep_scrape q sr dc rt ts).scraped_content = []) ∧
      (sr ≠ [] → (search_and_deep_scrape q sr dc rt ts).success = true) ∧
      (∀ i : Nat, (search_and_deep_scrape q sr dc rt ts).scraped_content[i]? =
        ((sr.map (fun r => r.url))[i]?).map (fun u =>
          match rt i u with
          | .ok e => e
          | .exn msg => { success := false, url := some u, error := msg })) := by
  intro q ts dc sr rt
  by_cases hsr : sr = []
  · subst hsr
    refine ⟨by simp [search_and_deep_scrape], ?_, by simp, ?_⟩
    · intro _
      constructor <;> rfl
    · intro i
      simp [search_and_deep_scrape]
  · have hne : sr.isEmpty = false := by
      simpa [List.isEmpty_iff] using hsr
    refine ⟨?_, ?_, ?_, ?_⟩
    · simp [search_and_deep_scrape, hne, hsr]
    · intro hcontra
      exact absurd hcontra hsr
    · intro _
      simp [search_and_deep_scrape, hne]
    · intro i
      simp only [search_and_deep_scrape, hne, Bool.false_eq_true, if_false]
      exact processTasks_getElem (sr.map (fun r => r.url)) rt i

/-- Claim C8, witness: a two-result search in which the first crawl fails and
the second raises still yields `success=true`, while an empty search yields
`success=false` with the fixed error string. -/
theorem search_and_deep_scrape_success_iff_witness :
    (search_and_deep_scrape "q" exSearchResults true exRunTask "ts").success = true ∧
    (search_and_deep_scrape "q" [] true exRunTask "ts").success = false ∧
    (search_and_deep_scrape "q" [] true exRunTask "ts").error = "No search results found" :=
  ⟨(search_and_deep_scrape_success_iff "q" "ts" true exSearchResults exRunTask).2.2.1
      (by decide),
   (search_and_deep_scrape_success_iff "q" "ts" true [] exRunTask).1.mpr rfl,
   ((search_and_deep_scrape_success_iff "q" "ts" true [] exRunTask).2.1 rfl).1⟩

/-- Claim C9: the analysis counts the number of domain results, the number of
successful ones, the total pages over successful domain results, the summed
table counts over those pages and the number of those pages carrying any
non-empty structured-data field; the two-domain example (one success with two
one-table pages, one full failure) yields 2 / 1 / 2 / 2. -/
theorem analyze_deep_scrape_results_totals :
    (∀ results : SessionResult,
      (analyze_deep_scrape_results results).total_domains =
        results.scraped_content.length ∧
      (analyze_deep_scrape_results results).successful_domains =
        (results.scraped_content.filter (fun r => r.success)).length ∧
      (analyze_deep_scrape_results results).total_pages =
        ((results.scraped_content.filter (fun r => r.success)).map
          (fun e => (entryPages e).length)).sum ∧
      (analyze_deep_scrape_results results).tables_found =
        ((results.scraped_content.filter (fun r => r.success)).map
          (fun e => ((entryPages e).map (fun p => p.tables.length)).sum)).sum ∧
      (analyze_deep_scrape_results results).structured_data_found =
        ((results.scraped_content.filter (fun r => r.success)).map
          (fun e => ((entryPages e).filter
            (fun p => sdHasAny p.structured_data)).length)).sum) ∧
    ((analyze_deep_scrape_results exSession).total_domains = 2 ∧
      (analyze_deep_scrape_results exSession).successful_domains = 1 ∧
      (analyze_deep_scrape_results exSession).total_pages = 2 ∧
      (analyze_deep_scrape_results exSession).tables_found = 2) := by
  constructor
  · intro results
    obtain ⟨g1, g2, g3⟩ := analyzeDomain_foldl results.scraped_content {}
    refine ⟨rfl, ?_, ?_, ?_, ?_⟩
    · simpa [analyze_deep_scrape_results] using
        sum_indicator_success results.scraped_content
    · simpa [analyze_deep_scrape_results] using g1
    · simpa [analyze_deep_scrape_results] using g2
    · simpa [analyze_deep_scrape_results] using g3
  · decide

/-- Claim C10: with `n ≥ 1` search results the `scraped_content` list has
exactly `n` entries, and entry `i` is the outcome of the task spawned for the
URL of search result `i` — an exception at task `i` becomes a failure record
with that URL and the exception message, never dropped or reordered. -/
theorem search_and_deep_scrape_positional :
    ∀ (q ts : String) (dc : Bool) (sr : List SearchResult)
      (rt : Nat → String → TaskOutcome),
      sr ≠ [] →
      (search_and_deep_scrape q sr dc rt ts).scraped_content.length = sr.length ∧
      (∀ i : Nat, i < sr.length →
        (search_and_deep_scrape q sr dc rt ts).scraped_content[i]? =
          some (match rt i ((sr.map (fun r => r.url)).getD i "") with
                | .ok e => e
                | .exn msg =>
                  { success := false, url := some ((sr.map (fun r => r.url)).getD i ""),
                    error := msg })) := by
  intro q ts dc sr rt hne
  have hne' : sr.isEmpty = false := by
    simpa [List.isEmpty_iff] using hne
  constructor
  · simp [search_and_deep_scrape, hne', processTasks_length]
  · intro i hi
    have hlen : i < (sr.map (fun r => r.url)).length := by simpa using hi
    have hu : (sr.map (fun r => r.url))[i]? =
        some ((sr.map (fun r => r.url)).getD i "") := by
      rw [List.getD_eq_getElem?_getD, List.getElem?_eq_getElem hlen]
      simp
    simp only [search_and_deep_scrape, hne', Bool.false_eq_true, if_false]
    rw [processTasks_getElem, hu]
    simp

/-- Claim C10, witness: the positional theorem at the two-result example; the
second task raises `boom` and entry 1 is the matching failure record. -/
theorem search_and_deep_scrape_positional_witness :
    (search_and_deep_scrape "q" exSearchResults true exRunTask "ts").scraped_content.length =
      2 ∧
    (search_and_deep_scrape "q" exSearchResults true exRunTask "ts").scraped_content[1]? =
      some { success := false, url := some "https://d2.com", error := "boom" } := by
  have h := search_and_deep_scrape_positional "q" "ts" true exSearchResults exRunTask
    (by decide)
  refine ⟨h.1.trans (by decide), ?_⟩
  rw [h.2 1 (by decide)]
  rfl
